import Mathlib

/-!
Verification of the Puff domain-monitoring engine against its specification.

The Go sources are shallowly embedded: pure fragments become Lean functions,
the SQLite tables become explicit values (a function map for the keyed
`domain_results` table, a list of rows for `notification_history`), the
wall clock and the database-write outcome become explicit parameters, and
fallible operations return `Except`.  Status values are strings, matching
the Go sources, where `DomainStatus` is a string type.  Text is modelled
over `List Char`; Go's `len` counts UTF-8 bytes, which is noted wherever it
could matter.
-/

namespace Puff

/-! ## String helpers (Go strings package, ASCII fragment)

Go's `strings.ToLower` and `unicode.IsSpace` act on all of Unicode; the
inputs exercised here are ASCII plus CJK text, on which ASCII lowercasing
and the ASCII whitespace set agree with Go's behaviour (CJK characters have
no case and are not spaces). -/

/-- Character lowercasing as used by `strings.ToLower` (ASCII fragment). -/
def lowChar (c : Char) : Char := Char.toLower c

/-- Go regexp's character class backslash-s: space, tab, newline, carriage
return, form feed, vertical tab; also the leading set of `strings.TrimSpace`
for ASCII input. -/
def isSpaceGo (c : Char) : Bool :=
  c = ' ' || c = '\t' || c = '\n' || c = '\r' || c = Char.ofNat 11 || c = Char.ofNat 12

/-- Lowercase a character list (`strings.ToLower`). -/
def toLowerL (l : List Char) : List Char := l.map lowChar

/-- `strings.TrimSpace`: drop leading and trailing whitespace. -/
def trimL (l : List Char) : List Char :=
  ((l.dropWhile isSpaceGo).reverse.dropWhile isSpaceGo).reverse

/-- `strings.ToLower` on `String`. -/
def lowerS (s : String) : String := String.mk (toLowerL s.data)

/-- `strings.TrimSpace` on `String`. -/
def trimS (s : String) : String := String.mk (trimL s.data)

/-- `strings.ToLower (strings.TrimSpace s)` — the domain normalization used
throughout the sources. -/
def normalizeDomain (s : String) : String := lowerS (trimS s)

/-- Does `pre` start `l` (`strings.HasPrefix` on char lists)? -/
def startsWithL : List Char → List Char → Bool
  | [], _ => true
  | _ :: _, [] => false
  | a :: as, b :: bs => a = b && startsWithL as bs

/-- `strings.Contains hay needle` on char lists. -/
def containsL (needle : List Char) : List Char → Bool
  | [] => startsWithL needle []
  | c :: t => startsWithL needle (c :: t) || containsL needle t

/-- `strings.Contains` on `String`. -/
def containsS (hay needle : String) : Bool := containsL needle.data hay.data

/-- Go `len` of a string: its UTF-8 byte count. -/
def goLen (s : String) : Nat := s.data.foldl (fun n c => n + c.utf8Size) 0

/-! ## Time

`time.Time` values are modelled by their broken-down calendar fields; the
engine only ever compares them (`Before`) and stores them. -/

/-- A calendar instant, standing in for Go's `time.Time`. -/
structure GoTime where
  year : Nat
  month : Nat
  day : Nat
  hour : Nat
  minute : Nat
  second : Nat
deriving DecidableEq

/-- `time.Time.Before`, lexicographic on the calendar fields. -/
def GoTime.before (a b : GoTime) : Bool :=
  if a.year ≠ b.year then a.year < b.year
  else if a.month ≠ b.month then a.month < b.month
  else if a.day ≠ b.day then a.day < b.day
  else if a.hour ≠ b.hour then a.hour < b.hour
  else if a.minute ≠ b.minute then a.minute < b.minute
  else a.second < b.second

/-! ## Lifecycle states

In the Go sources `DomainStatus` is a string type.  The file declaring the
constants is not among the provided sources; the values below are modelled
from the spec's closed set of lifecycle states, corroborated by
`aggregator.go`, which compares against the literal string "unknown", and by
the storage layer, which persists the states as these strings. -/

/-- `type DomainStatus string` in the Go sources. -/
abbrev DomainStatus := String

/-- Modelled from the spec: lifecycle state constant. -/
def StatusAvailable : DomainStatus := "available"

/-- Modelled from the spec: lifecycle state constant. -/
def StatusRegistered : DomainStatus := "registered"

/-- Modelled from the spec: lifecycle state constant. -/
def StatusGrace : DomainStatus := "grace"

/-- Modelled from the spec: lifecycle state constant. -/
def StatusRedemption : DomainStatus := "redemption"

/-- Modelled from the spec: lifecycle state constant. -/
def StatusPendingDelete : DomainStatus := "pending_delete"

/-- Modelled from the spec: lifecycle state constant. -/
def StatusExpired : DomainStatus := "expired"

/-- Modelled from the spec: lifecycle state constant. -/
def StatusError : DomainStatus := "error"

/-- Modelled from the spec: lifecycle state constant. -/
def StatusUnknown : DomainStatus := "unknown"

/-! ## Result store (`storage/sqlite.go`) -/

/-- `storage.DomainResult` — one row of `domain_results`.  `name_servers` is
stored comma-joined in SQLite; the list form is kept here since every reader
splits it back. -/
structure DomainResult where
  domain : String
  status : String
  registrar : String
  lastChecked : GoTime
  queryMethod : String
  createdAt : Option GoTime
  expiryAt : Option GoTime
  updatedAt : Option GoTime
  nameServers : List String
  whoisRaw : String
  errorMessage : String
deriving DecidableEq

/-- The `domain_results` table: `domain TEXT PRIMARY KEY`, so a map from the
key to the row. -/
def ResultsTable := String → Option DomainResult

/-- `storage.SaveDomainResult`: INSERT ... ON CONFLICT(domain) DO UPDATE SET
every column to the excluded (incoming) value.  The statement is an
unconditional upsert — no column, in particular not `last_checked`, is
compared against the stored row — and it only fails on database errors,
which the pure table model does not have. -/
def SaveDomainResult (tbl : ResultsTable) (res : DomainResult) :
    Except String ResultsTable :=
  Except.ok (fun d => if d = res.domain then some res else tbl d)

/-- `storage.NotificationRecord` — one row of `notification_history`
(`id INTEGER PRIMARY KEY AUTOINCREMENT`, `UNIQUE(domain, status)`). -/
structure NotificationRecord where
  id : Nat
  domain : String
  status : String
  oldStatus : String
  sentAt : Nat
  notificationType : String
deriving DecidableEq

/-- Does row `r` conflict with an insert of (`domain`, `status`) under the
table's UNIQUE(domain, status) constraint? -/
def notifMatches (domain status : String) (r : NotificationRecord) : Bool :=
  r.domain = domain && r.status = status

/-- `storage.SaveNotification`: lowercases and trims the domain, rejects an
empty domain, then runs
INSERT INTO notification_history(domain, status, old_status, notification_type)
VALUES(?, ?, ?, "status_change")
ON CONFLICT(domain, status) DO UPDATE SET sent_at = CURRENT_TIMESTAMP,
old_status = excluded.old_status.
`now` models CURRENT_TIMESTAMP and `nextId` the AUTOINCREMENT counter. -/
def SaveNotification (tbl : List NotificationRecord) (nextId : Nat)
    (domain status oldStatus : String) (now : Nat) :
    Except String (List NotificationRecord × Nat) :=
  let d := normalizeDomain domain
  if d = "" then Except.error "域名不能为空"
  else if tbl.any (notifMatches d status) then
    Except.ok
      (tbl.map fun r =>
        if notifMatches d status r then
          { r with sentAt := now, oldStatus := oldStatus }
        else r,
       nextId)
  else
    Except.ok
      (tbl ++ [{ id := nextId, domain := d, status := status,
                 oldStatus := oldStatus, sentAt := now,
                 notificationType := "status_change" }],
       nextId + 1)

/-- The row of the pair with the strictly later `sent_at` (ties keep the
earlier row; SQL leaves the tie order unspecified and the theorems below
only use it under strict-freshness hypotheses). -/
def laterOf (a b : NotificationRecord) : NotificationRecord :=
  if a.sentAt < b.sentAt then b else a

/-- `storage.GetLastNotification`: SELECT ... WHERE domain = ?
ORDER BY sent_at DESC LIMIT 1, with the domain lowercased and trimmed. -/
def GetLastNotification (tbl : List NotificationRecord) (domain : String) :
    Option NotificationRecord :=
  let d := normalizeDomain domain
  (tbl.filter fun r => r.domain = d).foldl
    (fun acc r =>
      match acc with
      | none => some r
      | some a => some (laterOf a r))
    none

/-! ## Notification aggregator (`notification/aggregator.go`)

The aggregator is a single-threaded consumer; its mutable fields
`pendingEvents` and `groupTimer` become an explicit state value, and the
`time.AfterFunc` group timer is tracked as an armed flag.  Deliveries to the
notification manager (`SendNotificationDirect` / `SendNotificationDirectBatch`)
become an output value. -/

/-- `notification.NotificationEvent`. -/
structure NotificationEvent where
  eventType : String
  domain : String
  status : String
  oldStatus : String
  message : String
  timestamp : Nat
  whoisRaw : String
deriving DecidableEq

/-- The aggregator's mutable state: the pending list and whether the
10-second group timer is armed. -/
structure AggState where
  pendingEvents : List NotificationEvent
  groupTimerArmed : Bool
deriving DecidableEq

/-- What `handleEvent` did with one event. -/
inductive HandleOutcome
  | droppedFirstObservation
  | droppedNoChange
  | droppedDuplicate
  | groupedNew
  | groupedAppended
  | groupedSkippedDomainDup
deriving DecidableEq

/-- The outcomes in which the event never reaches the pending group. -/
def HandleOutcome.isDropped : HandleOutcome → Bool
  | droppedFirstObservation => true
  | droppedNoChange => true
  | droppedDuplicate => true
  | _ => false

/-- `NotificationAggregator.handleEvent`, parametric in the result of the
`storage.GetLastNotification` call (`Except.error` models a database read
failure, which the source only logs before continuing to the grouping
logic). -/
def handleEventWith (lastNotif : Except String (Option NotificationRecord))
    (st : AggState) (ev : NotificationEvent) : AggState × HandleOutcome :=
  if ev.oldStatus = "" || ev.oldStatus = "unknown" then
    (st, .droppedFirstObservation)
  else if ev.oldStatus = ev.status then
    (st, .droppedNoChange)
  else
    let dup :=
      match lastNotif with
      | .error _ => false
      | .ok none => false
      | .ok (some r) => r.status = ev.status && r.oldStatus = ev.oldStatus
    if dup then (st, .droppedDuplicate)
    else if st.pendingEvents.isEmpty then
      ({ pendingEvents := [ev], groupTimerArmed := true }, .groupedNew)
    else if st.pendingEvents.any (fun e => e.domain = ev.domain) then
      (st, .groupedSkippedDomainDup)
    else
      ({ st with pendingEvents := st.pendingEvents ++ [ev] }, .groupedAppended)

/-- `handleEvent` with the last-notification lookup performed against the
persisted `notification_history` table. -/
def handleEvent (tbl : List NotificationRecord) (st : AggState)
    (ev : NotificationEvent) : AggState × HandleOutcome :=
  handleEventWith (Except.ok (GetLastNotification tbl ev.domain)) st ev

/-- A delivery handed to the notification manager by a flush. -/
inductive Delivery
  | single (ev : NotificationEvent)
  | batch (evs : List NotificationEvent)
deriving DecidableEq

/-- One `storage.SaveNotification` call whose error is only logged (the
aggregator logs the failure and carries on). -/
def saveNotifLogged (tbl : List NotificationRecord) (nextId : Nat)
    (domain status oldStatus : String) (now : Nat) :
    List NotificationRecord × Nat :=
  match SaveNotification tbl nextId domain status oldStatus now with
  | .ok r => r
  | .error _ => (tbl, nextId)

/-- `sendBatchNotification`: persist every pending event's record in order,
then hand the ordered list to `SendNotificationDirectBatch`. -/
def sendBatchNotification (evs : List NotificationEvent)
    (tbl : List NotificationRecord) (nextId now : Nat) :
    List NotificationRecord × Nat :=
  evs.foldl
    (fun acc ev => saveNotifLogged acc.1 acc.2 ev.domain ev.status ev.oldStatus now)
    (tbl, nextId)

/-- `sendPendingNotificationsLocked`: nothing to do on an empty pending
list; with exactly one pending event persist its record and deliver it as a
single notification; with two or more persist each record and deliver one
batched notification with the events in insertion order.  In the non-empty
cases the pending list is cleared and the group timer stopped and nilled. -/
def sendPendingNotificationsLocked (st : AggState)
    (tbl : List NotificationRecord) (nextId now : Nat) :
    AggState × (List NotificationRecord × Nat) × Option Delivery :=
  if st.pendingEvents.isEmpty then (st, (tbl, nextId), none)
  else
    match st.pendingEvents with
    | [ev] =>
      ({ pendingEvents := [], groupTimerArmed := false },
       saveNotifLogged tbl nextId ev.domain ev.status ev.oldStatus now,
       some (.single ev))
    | evs =>
      ({ pendingEvents := [], groupTimerArmed := false },
       sendBatchNotification evs tbl nextId now,
       some (.batch evs))

/-! ## Domain worker (`core/domain_worker.go`, second revision in the file)

`executeQuery` runs after the semaphore acquire; the database read of the
previous row, the success of the database write and the fullness of the
status channel become parameters, and the externally visible calls become an
ordered action trace. -/

/-- The notify-flag table `GetStatusInfo`.  Modelled from the spec: the file
declaring the state→info table is not among the provided sources; spec §4.6
fixes that exactly available, grace, redemption and pending_delete carry
"should notify". -/
structure StatusInfo where
  shouldNotify : Bool
deriving DecidableEq

/-- Modelled from the spec: `GetStatusInfo`, restricted to the notify flag,
the only field the worker consults. -/
def GetStatusInfo (s : DomainStatus) : StatusInfo :=
  ⟨s = StatusAvailable || s = StatusGrace || s = StatusRedemption ||
    s = StatusPendingDelete⟩

/-- `core.DomainInfo`, the classifier's output record. -/
structure DomainInfo where
  name : String
  status : DomainStatus
  registrar : String
  createdDate : Option GoTime
  expiryDate : Option GoTime
  updatedDate : Option GoTime
  nameServers : List String
  whoisRaw : String
  errorMessage : String
  queryMethod : String
  lastChecked : GoTime
deriving DecidableEq

/-- `core.StatusChangeEvent` (the `DomainInfo` snapshot pointer is carried
as-is and unused by the claims). -/
structure StatusChangeEvent where
  domain : String
  oldStatus : DomainStatus
  newStatus : DomainStatus
  timestamp : GoTime
  message : String
deriving DecidableEq

/-- Modelled from the spec: `GetStatusChangeMessage` lives in the missing
status file; only the fact that a message string is attached matters to the
claims, not its wording. -/
def GetStatusChangeMessage (domain : String) (o n : DomainStatus) : String :=
  domain ++ ": " ++ o ++ " -> " ++ n

/-- `DomainWorker.notifyStatusChange`: gate on the worker's notify flag, on
recovery from the error state, and on the state-info notify table; then a
non-blocking channel send (`channelFull` models the full-channel drop). -/
def notifyStatusChange (notify : Bool) (domain : String)
    (oldStatus newStatus : DomainStatus) (now : GoTime) (channelFull : Bool) :
    Option StatusChangeEvent :=
  if !notify then none
  else if oldStatus = StatusError then none
  else if !(GetStatusInfo newStatus).shouldNotify then none
  else if channelFull then none
  else some { domain := domain, oldStatus := oldStatus, newStatus := newStatus,
              timestamp := now,
              message := GetStatusChangeMessage domain oldStatus newStatus }

/-- The externally visible calls `executeQuery` makes, in program order. -/
inductive WorkerAction
  | recordQuery (domain : String)
  | saveResult (info : DomainInfo) (writeOk : Bool)
  | emitTransition (ev : StatusChangeEvent)
deriving DecidableEq

/-- The worker fields `executeQuery` reads and writes. -/
structure WorkerState where
  domain : String
  notify : Bool
  isFirstQuery : Bool
  lastStatus : DomainStatus
deriving DecidableEq

/-- `DomainWorker.executeQuery` after the semaphore acquire: record the
query start, read the previous row (`previous = none` covers both a missing
row and a read error, which the source treats alike), run the query
(already-computed `info`), call `saveToDatabase` — whose
`storage.SaveDomainResult` error is only logged (`writeOk` records the
outcome) — and then run the transition logic, which never consults the
write outcome. -/
def executeQuery (w : WorkerState) (previous : Option DomainResult)
    (info : DomainInfo) (writeOk channelFull : Bool) (now : GoTime) :
    WorkerState × List WorkerAction :=
  let previousStatus : DomainStatus :=
    match previous with
    | some r => r.status
    | none => StatusUnknown
  let acts : List WorkerAction :=
    [.recordQuery w.domain, .saveResult info writeOk]
  if w.isFirstQuery then
    ({ w with isFirstQuery := false, lastStatus := info.status }, acts)
  else if previousStatus ≠ StatusUnknown && previousStatus ≠ info.status then
    match notifyStatusChange w.notify w.domain previousStatus info.status now
        channelFull with
    | some ev =>
      ({ w with lastStatus := info.status }, acts ++ [.emitTransition ev])
    | none => ({ w with lastStatus := info.status }, acts)
  else
    ({ w with lastStatus := info.status }, acts)

/-- The transition events inside an action trace, in order. -/
def emittedEvents (acts : List WorkerAction) : List StatusChangeEvent :=
  acts.filterMap fun a =>
    match a with
    | .emitTransition ev => some ev
    | _ => none

/-- `DomainWorker.getIntervalByStatus` (nanoseconds of `time.Duration`):
every branch but the error state returns the configured base interval. -/
def getIntervalByStatus (checkInterval : Nat) (status : DomainStatus) : Nat :=
  let baseInterval := checkInterval
  if status = StatusAvailable then baseInterval
  else if status = StatusPendingDelete then baseInterval
  else if status = StatusRedemption then baseInterval
  else if status = StatusGrace then baseInterval
  else if status = StatusError then 3600 * 1000000000
  else if status = StatusRegistered then baseInterval
  else baseInterval

/-- `time.Hour` in nanoseconds. -/
def timeHour : Nat := 3600 * 1000000000

/-! ## RDAP client (`core/rdap.go`) -/

/-- A JSON value, for the `vcardArray` blobs (`[]interface` in Go). -/
inductive JsonV
  | str (s : String)
  | num (n : Int)
  | arr (elems : List JsonV)
  | obj
  | null

/-- `core.RDAPEntity`. -/
structure RDAPEntity where
  objectClassName : String
  handle : String
  roles : List String
  vcardArray : List JsonV

/-- `core.RDAPEvent`. -/
structure RDAPEvent where
  eventAction : String
  eventDate : GoTime
deriving DecidableEq

/-- `core.RDAPNameServer` (the IP addresses are never read). -/
structure RDAPNameServer where
  objectClassName : String
  ldhName : String
deriving DecidableEq

/-- `core.RDAPResponse`. -/
structure RDAPResponse where
  objectClassName : String
  handle : String
  ldhName : String
  status : List String
  entities : List RDAPEntity
  events : List RDAPEvent
  nameServers : List RDAPNameServer
  errorCode : Nat
  title : String
  description : List String

/-- `RDAPClient.parseRDAPStatus`: an empty list is unknown; otherwise the
lowercased statuses are checked as a set, redemption before pending delete
before the grace markers, and anything else is registered. -/
def parseRDAPStatus (statuses : List String) : DomainStatus :=
  if statuses.isEmpty then StatusUnknown
  else
    let statusMap := statuses.map lowerS
    if statusMap.contains "redemption period" ||
        statusMap.contains "redemptionperiod" then
      StatusRedemption
    else if statusMap.contains "pending delete" ||
        statusMap.contains "pendingdelete" then
      StatusPendingDelete
    else if statusMap.contains "renew period" ||
        statusMap.contains "auto renew period" ||
        statusMap.contains "expired" then
      StatusGrace
    else
      StatusRegistered

/-- `RDAPClient.extractOrgFromVCard`: the second element of the vCard array
holds the properties; return the fourth element of the first property whose
name is "org" or "fn". -/
def extractOrgFromVCard (vcard : List JsonV) : String :=
  match vcard with
  | _ :: JsonV.arr properties :: _ =>
    let rec go : List JsonV → String
      | [] => ""
      | p :: rest =>
        match p with
        | JsonV.arr propArray =>
          if propArray.length ≥ 4 then
            match propArray.head?, propArray[3]? with
            | some (JsonV.str propName), some (JsonV.str propValue) =>
              if lowerS propName = "org" then propValue
              else if lowerS propName = "fn" then propValue
              else go rest
            | _, _ => go rest
          else go rest
        | _ => go rest
    go properties
  | _ => ""

/-- `RDAPClient.parseRDAPRegistrar`: first entity with a (case-insensitive)
"registrar" role; prefer the vCard organization over the handle. -/
def parseRDAPRegistrar : List RDAPEntity → String
  | [] => ""
  | entity :: rest =>
    if entity.roles.any (fun role => lowerS role = "registrar") then
      let orgName := extractOrgFromVCard entity.vcardArray
      if orgName ≠ "" then orgName else entity.handle
    else
      parseRDAPRegistrar rest

/-- The three event dates `RDAPClient.parseRDAPEvents` fills in. -/
structure RDAPDates where
  createdDate : Option GoTime
  expiryDate : Option GoTime
  updatedDate : Option GoTime
deriving DecidableEq

/-- `RDAPClient.parseRDAPEvents`: fold over the events; later events of the
same action overwrite earlier ones. -/
def parseRDAPEvents (events : List RDAPEvent) : RDAPDates :=
  events.foldl
    (fun d event =>
      let action := lowerS event.eventAction
      if action = "registration" then { d with createdDate := some event.eventDate }
      else if action = "expiration" then { d with expiryDate := some event.eventDate }
      else if action = "soft expiration" then { d with expiryDate := some event.eventDate }
      else if action = "last changed" || action = "last update of rdap database" then
        { d with updatedDate := some event.eventDate }
      else d)
    { createdDate := none, expiryDate := none, updatedDate := none }

/-- `RDAPClient.parseRDAPNameServers`: lowercased `ldhName`s, deduplicated
preserving first occurrence, skipping empties. -/
def parseRDAPNameServers (nameservers : List RDAPNameServer) : List String :=
  (nameservers.foldl
    (fun acc ns =>
      if ns.ldhName ≠ "" then
        let lowerName := lowerS ns.ldhName
        if acc.contains lowerName then acc else acc ++ [lowerName]
      else acc)
    [])

/-- `RDAPClient.ParseRDAPResponse`: a 404 error body short-circuits to
available; otherwise classify the status array, extract registrar, event
dates and name servers, then apply the fallbacks — an unknown status with a
not-found description becomes available, an available status with
registration signals is corrected to registered, and a still-unknown status
resolves to registered or available according to the registration
signals. -/
def ParseRDAPResponse (domain : String) (rdapResp : RDAPResponse)
    (rawJSON : String) (now : GoTime) : DomainInfo :=
  let info0 : DomainInfo :=
    { name := domain, status := "", registrar := "", createdDate := none,
      expiryDate := none, updatedDate := none, nameServers := [],
      whoisRaw := rawJSON, errorMessage := "", queryMethod := "rdap",
      lastChecked := now }
  if rdapResp.errorCode = 404 then
    { info0 with status := StatusAvailable }
  else
    let dates := parseRDAPEvents rdapResp.events
    let info1 : DomainInfo :=
      { info0 with
        status := parseRDAPStatus rdapResp.status,
        registrar := parseRDAPRegistrar rdapResp.entities,
        createdDate := dates.createdDate,
        expiryDate := dates.expiryDate,
        updatedDate := dates.updatedDate,
        nameServers := parseRDAPNameServers rdapResp.nameServers }
    let info2 :=
      if info1.status = StatusUnknown then
        let desc := lowerS (String.intercalate " " rdapResp.description)
        let title := lowerS rdapResp.title
        if containsS title "not found" || containsS desc "not found" ||
            containsS desc "no match" || containsS desc "domain not found" then
          { info1 with status := StatusAvailable }
        else info1
      else info1
    let info3 :=
      if info2.status = StatusAvailable then
        let hasValidRegistrar :=
          info2.registrar ≠ "" && !containsS info2.registrar "不支持"
        let hasExpiryDate := info2.expiryDate.isSome
        let hasCreatedDate := info2.createdDate.isSome
        let hasEvents := !rdapResp.events.isEmpty
        if hasValidRegistrar || hasExpiryDate || hasCreatedDate || hasEvents then
          { info2 with status := StatusRegistered }
        else info2
      else info2
    if info3.status = StatusUnknown then
      let hasValidRegistrar :=
        info3.registrar ≠ "" && !containsS info3.registrar "不支持"
      let hasNameServers := !info3.nameServers.isEmpty
      let hasExpiryDate := info3.expiryDate.isSome
      let hasCreatedDate := info3.createdDate.isSome
      let hasEvents := !rdapResp.events.isEmpty
      if hasValidRegistrar || hasNameServers || hasExpiryDate ||
          hasCreatedDate || hasEvents then
        { info3 with status := StatusRegistered }
      else
        { info3 with status := StatusAvailable }
    else info3

/-! ## TLD registry (`config`, unnamed part with `findBestTLD`) -/

/-- `config.findBestTLD`: over the keys of the embedded `servers.json` map
(the data file is not among the sources, so the key set is a parameter),
pick the longest lowercased key that equals the lowercased domain or ends it
after a dot; empty means unsupported. -/
def FindBestTLD (serverKeys : List String) (domain : String) : String :=
  let d := lowerS domain
  serverKeys.foldl
    (fun best tld =>
      let lt := lowerS tld
      if (d = lt || startsWithL ("." ++ lt).data.reverse d.data.reverse) &&
          best.data.length < lt.data.length then
        lt
      else best)
    ""

/-! ## Domain validation (`DomainChecker.ValidateDomain`, unnamed core part) -/

/-- The character test of the validation loop: `[A-Za-z0-9.-]`. -/
def isValidDomainChar (c : Char) : Bool :=
  ('a' ≤ c && c ≤ 'z') || ('A' ≤ c && c ≤ 'Z') || ('0' ≤ c && c ≤ '9') ||
    c = '.' || c = '-'

/-- `strings.Split` on the dot separator. -/
def splitDot : List Char → List (List Char)
  | [] => [[]]
  | c :: t =>
    if c = '.' then [] :: splitDot t
    else
      match splitDot t with
      | [] => [[c]]
      | p :: ps => (c :: p) :: ps

/-- The all-digits scan for the last label. -/
def allDigitsL (p : List Char) : Bool := p.all fun c => '0' ≤ c && c ≤ '9'

/-- The per-label checks of the validation loop, in source order: non-empty,
at most 63 characters, no leading or trailing hyphen. -/
def partBasicOk (p : List Char) : Bool :=
  !p.isEmpty && p.length ≤ 63 && p.head? ≠ some '-' && p.getLast? ≠ some '-'

/-- The validation loop over the labels: every label passes the basic
checks and the last label is additionally not all digits. -/
def checkParts : List (List Char) → Bool
  | [] => true
  | [p] => partBasicOk p && !allDigitsL p
  | p :: q :: rest => partBasicOk p && checkParts (q :: rest)

/-- `DomainChecker.ValidateDomain`, as acceptance (`true` iff the Go
function returns a nil error): trim, then reject empty input, input longer
than 253 (Go counts bytes; on anything that can reach the later checks the
characters are ASCII, so the char count used here gives the same
acceptance), invalid characters, fewer than two labels, and label
violations. -/
def ValidateDomain (domain : String) : Bool :=
  let d := trimL domain.data
  if d.isEmpty then false
  else if 253 < d.length then false
  else if !(d.all isValidDomainChar) then false
  else
    let parts := splitDot d
    if parts.length < 2 then false
    else checkParts parts

/-- `Monitor.AddDomain` lowercases and trims the name and accepts it iff
`ValidateDomain` accepts; no other check is performed there. -/
def AddDomainAccepts (domain : String) : Bool :=
  ValidateDomain (normalizeDomain domain)

/-! ## WHOIS classifier (`WhoisClient`, unnamed core part)

The Go code drives extraction with `regexp`.  Every pattern in the source is
one of a handful of shapes — a case-insensitive literal key followed by a
whitespace-skipped line capture, with dot-leader, colon, anchored and
section variants — so the shapes are embedded as a small pattern type with
Go regexp matching semantics: leftmost match of the whole pattern, with the
later occurrence tried when the capture at an earlier one is empty.  Keys
are stored lowercase; `(?i)` matching lowers the scanned text.  A capture
written `(.+)` in the source can also take a carriage return that
`([^\r\n]+)` stops before; every caller trims the capture, so the two agree
after trimming, and the line-capture form is used for both. -/

/-- The pattern shapes occurring in the source's regex tables. -/
inductive RePat
  /-- KEY followed by backslash-s star and a line capture; KEY carries its own
  trailing colon or bracket. -/
  | keyCap (key : String)
  /-- KEY followed by backslash-s plus (at least one whitespace) and a capture. -/
  | keySpaceCap (key : String)
  /-- KEY, optional whitespace, a colon, then the capture. -/
  | keySpColonCap (key : String)
  /-- KEY, one or more dots, a colon, then the capture. -/
  | keyDotsColonCap (key : String)
  /-- KEY (with its colon), one or more dots, then the capture with no
  whitespace skip. -/
  | keyDotsCap (key : String)
  /-- KEY anchored at the start of the text (the sources use no multiline
  flag, so the caret matches only there). -/
  | anchoredKeyCap (key : String)
  /-- A bracketed section marker, lazily skipped text, then KEY and the
  capture: the leftmost KEY occurrence after the leftmost marker. -/
  | sectionKeyCap (sec key : String)
  /-- The .mo name-server pattern: after "domain name servers:", the first
  character-class run ending in .com/.net/.org (or the cloudflare forms,
  which those endings subsume). -/
  | nsMoCap

/-- Match a whitespace-skipped line capture: drop whitespace, then take the
non-empty run up to the end of the line.  Returns the capture and both
remainders. -/
def capLineFrom (low orig : List Char) : Option (List Char × List Char × List Char) :=
  let lskip := low.dropWhile isSpaceGo
  let oskip := orig.dropWhile isSpaceGo
  let cap := oskip.takeWhile fun c => c ≠ '\r' && c ≠ '\n'
  if cap.isEmpty then none
  else some (cap, lskip.drop cap.length, oskip.drop cap.length)

/-- Like `capLineFrom` but without the leading whitespace skip (the dot-leader
patterns capture directly). -/
def capLineNoWs (low orig : List Char) : Option (List Char × List Char × List Char) :=
  let cap := orig.takeWhile fun c => c ≠ '\r' && c ≠ '\n'
  if cap.isEmpty then none
  else some (cap, low.drop cap.length, orig.drop cap.length)

/-- Try one pattern shape at the current position.  `low` is the lowercased
text, `orig` the original, kept in lockstep. -/
def tryPatAt (p : RePat) (low orig : List Char) :
    Option (List Char × List Char × List Char) :=
  match p with
  | .keyCap key =>
    if startsWithL key.data low then
      capLineFrom (low.drop key.data.length) (orig.drop key.data.length)
    else none
  | .keySpaceCap key =>
    if startsWithL key.data low then
      let l1 := low.drop key.data.length
      let o1 := orig.drop key.data.length
      let ws := l1.takeWhile isSpaceGo
      if ws.isEmpty then none
      else capLineFrom (l1.drop ws.length) (o1.drop ws.length)
    else none
  | .keySpColonCap key =>
    if startsWithL key.data low then
      let l1 := (low.drop key.data.length).dropWhile isSpaceGo
      let o1 := (orig.drop key.data.length).dropWhile isSpaceGo
      match l1, o1 with
      | ':' :: l2, _ :: o2 => capLineFrom l2 o2
      | _, _ => none
    else none
  | .keyDotsColonCap key =>
    if startsWithL key.data low then
      let l1 := low.drop key.data.length
      let o1 := orig.drop key.data.length
      let dots := l1.takeWhile fun c => c = '.'
      if dots.isEmpty then none
      else
        match l1.drop dots.length, o1.drop dots.length with
        | ':' :: l2, _ :: o2 => capLineFrom l2 o2
        | _, _ => none
    else none
  | .keyDotsCap key =>
    if startsWithL key.data low then
      let l1 := low.drop key.data.length
      let o1 := orig.drop key.data.length
      let dots := l1.takeWhile fun c => c = '.'
      if dots.isEmpty then none
      else capLineNoWs (l1.drop dots.length) (o1.drop dots.length)
    else none
  | .anchoredKeyCap key =>
    if startsWithL key.data low then
      capLineFrom (low.drop key.data.length) (orig.drop key.data.length)
    else none
  | .sectionKeyCap _ _ => none
  | .nsMoCap => none

/-- Scan for the leftmost position where the pattern matches with a
non-empty capture. -/
def scanPat (p : RePat) : List Char → List Char → Option (List Char)
  | [], _ => none
  | _, [] => none
  | lc :: lt, oc :: ot =>
    match tryPatAt p (lc :: lt) (oc :: ot) with
    | some r => some r.1
    | none => scanPat p lt ot

/-- Scan for the leftmost occurrence of a literal marker (already
lowercased); returns both remainders after it. -/
def findMarker (key : List Char) : List Char → List Char → Option (List Char × List Char)
  | [], _ => none
  | _, [] => none
  | lc :: lt, oc :: ot =>
    if startsWithL key (lc :: lt) then
      some ((lc :: lt).drop key.length, (oc :: ot).drop key.length)
    else findMarker key lt ot

/-- Characters of the .mo pattern's class `[a-z0-9\-\.]` under `(?i)`. -/
def isMoClassChar (c : Char) : Bool :=
  ('a' ≤ c && c ≤ 'z') || ('A' ≤ c && c ≤ 'Z') || ('0' ≤ c && c ≤ '9') ||
    c = '-' || c = '.'

/-- Longest prefix of the run ending in ".com", ".net" or ".org" (greedy
capture of the .mo pattern; the cloudflare alternatives end in .com and are
subsumed). -/
def moTrimToEnding (run : List Char) : Option (List Char) :=
  let r := run.reverse
  let rec go : List Char → Option (List Char)
    | [] => none
    | c :: t =>
      if startsWithL "moc.".data (toLowerL (c :: t)) ||
          startsWithL "ten.".data (toLowerL (c :: t)) ||
          startsWithL "gro.".data (toLowerL (c :: t)) then
        some ((c :: t).reverse)
      else go t
  go r

/-- Scan for the first class-run (lazy, so advancing one position at a time)
whose prefix can end in one of the endings. -/
def nsMoGo : List Char → Option (List Char)
  | [] => none
  | c :: t =>
    if isMoClassChar c then
      match moTrimToEnding ((c :: t).takeWhile isMoClassChar) with
      | some cap => some cap
      | none => nsMoGo t
    else nsMoGo t

/-- The .mo name-server capture: first class-run after the marker that can
end in one of the endings. -/
def nsMoFind (low orig : List Char) : Option (List Char) :=
  match findMarker "domain name servers:".data low orig with
  | none => none
  | some (_, orest) => nsMoGo orest

/-- Find the leftmost match of a pattern in a response. -/
def rePatFind (p : RePat) (resp : String) : Option (List Char) :=
  let orig := resp.data
  let low := toLowerL orig
  match p with
  | .anchoredKeyCap key => (tryPatAt (.keyCap key) low orig).map fun r => r.1
  | .sectionKeyCap sec key =>
    match findMarker ("[" ++ sec ++ "]").data low orig with
    | none => none
    | some (lrest, orest) => scanPat (.keyCap key) lrest orest
  | .nsMoCap => nsMoFind low orig
  | _ => scanPat p low orig

/-- All matches of a pattern, continuing after each capture
(`FindAllStringSubmatch`); the fuel is the text length, which bounds the
number of matches. -/
def scanPatAll : Nat → RePat → List Char → List Char → List (List Char)
  | 0, _, _, _ => []
  | _ + 1, _, [], _ => []
  | _ + 1, _, _, [] => []
  | fuel + 1, p, lc :: lt, oc :: ot =>
    match tryPatAt p (lc :: lt) (oc :: ot) with
    | some (cap, lrest, orest) => cap :: scanPatAll fuel p lrest orest
    | none => scanPatAll fuel p lt ot

/-- All matches of a pattern in a response.  The anchored, section and .mo
shapes yield at most one match here (for the section and .mo shapes the
source could in principle re-match after a second marker; no response
considered in this development has one). -/
def rePatFindAll (p : RePat) (resp : String) : List (List Char) :=
  let orig := resp.data
  let low := toLowerL orig
  match p with
  | .anchoredKeyCap key =>
    match tryPatAt (.keyCap key) low orig with
    | some r => [r.1]
    | none => []
  | .sectionKeyCap _ _ =>
    match rePatFind p resp with
    | some cap => [cap]
    | none => []
  | .nsMoCap =>
    match rePatFind p resp with
    | some cap => [cap]
    | none => []
  | _ => scanPatAll (orig.length + 1) p low orig

/-! ## Date parsing (`WhoisClient.parseDateTime`)

Go `time.Parse` layouts are embedded as token lists tokenized by Go's rules:
"2006" is the four-digit year, "06" the two-digit year, "01"/"1" the month,
"02"/"2" the day, "03" the twelve-hour hour, "15" the hour, "04" the minute,
"05" the second, "Jan"/"January"/"Mon"/"Monday" the names, "MST" a zone
abbreviation, "-0700"/"-07:00" numeric zones, ".000"/".999999" fractions,
and anything else a case-sensitive literal (in particular "+07:00", "GMT",
"UTC" and zero-padded times like "00:00:00" are literal in Go layouts).
Name matching is case-insensitive, as in Go.  A handful of layout entries in
the source are junk strings (like "18-May-2020 00:00:00") whose Go
tokenizations interleave stray tokens; they are embedded as whole literals —
both readings fail on every date string this development evaluates. -/

/-- One Go layout token. -/
inductive LTok
  | year4
  | year2
  | month2
  | month1
  | day2
  | day1
  | hour24
  | hour12
  | minute2
  | second2
  | monAbbr
  | monFull
  | dayAbbr
  | dayFull
  | tzAbbr
  | numZone
  | numZoneColon
  | fracReq (n : Nat)
  | fracOpt
  | lit (s : String)

/-- Decimal digit test. -/
def isDigitC (c : Char) : Bool := '0' ≤ c && c ≤ '9'

/-- Digit value. -/
def digitVal (c : Char) : Nat := c.toNat - '0'.toNat

/-- Exactly two digits. -/
def take2Digits : List Char → Option (Nat × List Char)
  | a :: b :: t =>
    if isDigitC a && isDigitC b then some (digitVal a * 10 + digitVal b, t)
    else none
  | _ => none

/-- One or two digits (Go's non-padded numbers). -/
def take1or2Digits : List Char → Option (Nat × List Char)
  | a :: b :: t =>
    if isDigitC a then
      if isDigitC b then some (digitVal a * 10 + digitVal b, t)
      else some (digitVal a, b :: t)
    else none
  | [a] => if isDigitC a then some (digitVal a, []) else none
  | [] => none

/-- Exactly four digits. -/
def take4Digits : List Char → Option (Nat × List Char)
  | a :: b :: c :: d :: t =>
    if isDigitC a && isDigitC b && isDigitC c && isDigitC d then
      some (digitVal a * 1000 + digitVal b * 100 + digitVal c * 10 + digitVal d, t)
    else none
  | _ => none

/-- Month abbreviations with their numbers. -/
def monthNames3 : List (String × Nat) :=
  [("jan", 1), ("feb", 2), ("mar", 3), ("apr", 4), ("may", 5), ("jun", 6),
   ("jul", 7), ("aug", 8), ("sep", 9), ("oct", 10), ("nov", 11), ("dec", 12)]

/-- Full month names with their numbers. -/
def monthNamesFull : List (String × Nat) :=
  [("january", 1), ("february", 2), ("march", 3), ("april", 4), ("may", 5),
   ("june", 6), ("july", 7), ("august", 8), ("september", 9), ("october", 10),
   ("november", 11), ("december", 12)]

/-- Weekday abbreviations. -/
def dayNames3 : List String := ["mon", "tue", "wed", "thu", "fri", "sat", "sun"]

/-- Full weekday names. -/
def dayNamesFull : List String :=
  ["monday", "tuesday", "wednesday", "thursday", "friday", "saturday", "sunday"]

/-- Case-insensitive name lookup, returning the associated number and rest. -/
def takeNameNum (names : List (String × Nat)) (l : List Char) :
    Option (Nat × List Char) :=
  names.findSome? fun nv =>
    if startsWithL nv.1.data (toLowerL l) then
      some (nv.2, l.drop nv.1.data.length)
    else none

/-- Case-insensitive name skip (weekdays contribute no field). -/
def takeNameSkip (names : List String) (l : List Char) : Option (List Char) :=
  names.findSome? fun nm =>
    if startsWithL nm.data (toLowerL l) then some (l.drop nm.data.length)
    else none

/-- Match one token, updating the accumulated time. -/
def matchTok (t : LTok) (acc : GoTime) (input : List Char) :
    Option (GoTime × List Char) :=
  match t with
  | .year4 => (take4Digits input).map fun (v, r) => ({ acc with year := v }, r)
  | .year2 =>
    (take2Digits input).map fun (v, r) =>
      ({ acc with year := if v < 69 then 2000 + v else 1900 + v }, r)
  | .month2 =>
    (take2Digits input).bind fun (v, r) =>
      if 1 ≤ v && v ≤ 12 then some ({ acc with month := v }, r) else none
  | .month1 =>
    (take1or2Digits input).bind fun (v, r) =>
      if 1 ≤ v && v ≤ 12 then some ({ acc with month := v }, r) else none
  | .day2 =>
    (take2Digits input).bind fun (v, r) =>
      if 1 ≤ v && v ≤ 31 then some ({ acc with day := v }, r) else none
  | .day1 =>
    (take1or2Digits input).bind fun (v, r) =>
      if 1 ≤ v && v ≤ 31 then some ({ acc with day := v }, r) else none
  | .hour24 =>
    (take1or2Digits input).bind fun (v, r) =>
      if v ≤ 23 then some ({ acc with hour := v }, r) else none
  | .hour12 =>
    (take2Digits input).bind fun (v, r) =>
      if v ≤ 12 then some ({ acc with hour := v }, r) else none
  | .minute2 =>
    (take2Digits input).bind fun (v, r) =>
      if v ≤ 59 then some ({ acc with minute := v }, r) else none
  | .second2 =>
    (take2Digits input).bind fun (v, r) =>
      if v ≤ 59 then some ({ acc with second := v }, r) else none
  | .monAbbr =>
    (takeNameNum monthNames3 input).map fun (v, r) => ({ acc with month := v }, r)
  | .monFull =>
    (takeNameNum monthNamesFull input).map fun (v, r) => ({ acc with month := v }, r)
  | .dayAbbr => (takeNameSkip dayNames3 input).map fun r => (acc, r)
  | .dayFull => (takeNameSkip dayNamesFull input).map fun r => (acc, r)
  | .tzAbbr =>
    let u := input.takeWhile fun c => 'A' ≤ c && c ≤ 'Z'
    if u.isEmpty then none else some (acc, input.drop u.length)
  | .numZone =>
    match input with
    | s :: a :: b :: c :: d :: r =>
      if (s = '+' || s = '-') && isDigitC a && isDigitC b && isDigitC c &&
          isDigitC d then
        some (acc, r)
      else none
    | _ => none
  | .numZoneColon =>
    match input with
    | s :: a :: b :: k :: c :: d :: r =>
      if (s = '+' || s = '-') && isDigitC a && isDigitC b && k = ':' &&
          isDigitC c && isDigitC d then
        some (acc, r)
      else none
    | _ => none
  | .fracReq n =>
    match input with
    | '.' :: r =>
      let ds := r.takeWhile isDigitC
      if ds.length = n then some (acc, r.drop n) else none
    | _ => none
  | .fracOpt =>
    match input with
    | '.' :: r =>
      let ds := r.takeWhile isDigitC
      if ds.isEmpty then none else some (acc, r.drop ds.length)
    | _ => some (acc, input)
  | .lit s =>
    if startsWithL s.data input then some (acc, input.drop s.data.length)
    else none

/-- Run a layout's tokens over the input; the whole input must be consumed. -/
def runToks : List LTok → GoTime → List Char → Option GoTime
  | [], acc, [] => some acc
  | [], _, _ :: _ => none
  | t :: ts, acc, input =>
    match matchTok t acc input with
    | some (acc2, rest) => runToks ts acc2 rest
    | none => none

/-- Layout chunks 1-8 of `parseDateTime` (Go layout in each comment). -/
def goTimeFormatsA : List (List LTok) :=
  [ -- "2006-01-02T15:04:05Z"
    [.year4, .lit "-", .month2, .lit "-", .day2, .lit "T", .hour24, .lit ":",
     .minute2, .lit ":", .second2, .lit "Z"],
    -- "2006-01-02T15:04:05.000Z"
    [.year4, .lit "-", .month2, .lit "-", .day2, .lit "T", .hour24, .lit ":",
     .minute2, .lit ":", .second2, .fracReq 3, .lit "Z"],
    -- "2006-01-02T15:04:05+07:00" (the plus zone is literal in a Go layout)
    [.year4, .lit "-", .month2, .lit "-", .day2, .lit "T", .hour24, .lit ":",
     .minute2, .lit ":", .second2, .lit "+07:00"],
    -- "2006-01-02T15:04:05-07:00"
    [.year4, .lit "-", .month2, .lit "-", .day2, .lit "T", .hour24, .lit ":",
     .minute2, .lit ":", .second2, .numZoneColon],
    -- "2006-01-02 15:04:05"
    [.year4, .lit "-", .month2, .lit "-", .day2, .lit " ", .hour24, .lit ":",
     .minute2, .lit ":", .second2],
    -- "2006-01-02"
    [.year4, .lit "-", .month2, .lit "-", .day2],
    -- "2006-01-02 15:04:05" (repeated in the source)
    [.year4, .lit "-", .month2, .lit "-", .day2, .lit " ", .hour24, .lit ":",
     .minute2, .lit ":", .second2],
    -- "2006-01-02" (repeated)
    [.year4, .lit "-", .month2, .lit "-", .day2] ]

/-- Layout chunks 9-16. -/
def goTimeFormatsB : List (List LTok) :=
  [ -- "2006/01/02"
    [.year4, .lit "/", .month2, .lit "/", .day2],
    -- "2006/01/02 15:04:05"
    [.year4, .lit "/", .month2, .lit "/", .day2, .lit " ", .hour24, .lit ":",
     .minute2, .lit ":", .second2],
    -- "2006. 01. 02."
    [.year4, .lit ". ", .month2, .lit ". ", .day2, .lit "."],
    -- "2006. 01. 02"
    [.year4, .lit ". ", .month2, .lit ". ", .day2],
    -- "02-01-2006"
    [.day2, .lit "-", .month2, .lit "-", .year4],
    -- "2-1-2006"
    [.day1, .lit "-", .month1, .lit "-", .year4],
    -- "02-1-2006"
    [.day2, .lit "-", .month1, .lit "-", .year4],
    -- "2-01-2006"
    [.day1, .lit "-", .month2, .lit "-", .year4] ]

/-- Layout chunks 17-24. -/
def goTimeFormatsC : List (List LTok) :=
  [ -- "02-Jan-2006"
    [.day2, .lit "-", .monAbbr, .lit "-", .year4],
    -- "January 02 2006"
    [.monFull, .lit " ", .day2, .lit " ", .year4],
    -- "Jan 02 2006"
    [.monAbbr, .lit " ", .day2, .lit " ", .year4],
    -- "02/01/2006"
    [.day2, .lit "/", .month2, .lit "/", .year4],
    -- "01/02/2006"
    [.month2, .lit "/", .day2, .lit "/", .year4],
    -- "2006.01.02"
    [.year4, .lit ".", .month2, .lit ".", .day2],
    -- "2006.1.2"
    [.year4, .lit ".", .month1, .lit ".", .day1],
    -- "02.01.2006"
    [.day2, .lit ".", .month2, .lit ".", .year4] ]

/-- Layout chunks 25-32. -/
def goTimeFormatsD : List (List LTok) :=
  [ -- "2006-01-02 15:04:05 MST"
    [.year4, .lit "-", .month2, .lit "-", .day2, .lit " ", .hour24, .lit ":",
     .minute2, .lit ":", .second2, .lit " ", .tzAbbr],
    -- "2006-01-02 15:04:05 -0700"
    [.year4, .lit "-", .month2, .lit "-", .day2, .lit " ", .hour24, .lit ":",
     .minute2, .lit ":", .second2, .lit " ", .numZone],
    -- "02.01.2006" (repeated)
    [.day2, .lit ".", .month2, .lit ".", .year4],
    -- "2006-01-02 15:04:05 -07:00"
    [.year4, .lit "-", .month2, .lit "-", .day2, .lit " ", .hour24, .lit ":",
     .minute2, .lit ":", .second2, .lit " ", .numZoneColon],
    -- "2006-01-02 15:04:05 +07:00" (plus zone literal)
    [.year4, .lit "-", .month2, .lit "-", .day2, .lit " ", .hour24, .lit ":",
     .minute2, .lit ":", .second2, .lit " +07:00"],
    -- "January 2 2006"
    [.monFull, .lit " ", .day1, .lit " ", .year4],
    -- "Jan 2 2006"
    [.monAbbr, .lit " ", .day1, .lit " ", .year4],
    -- "Mon Jan 2 15:04:05 2006"
    [.dayAbbr, .lit " ", .monAbbr, .lit " ", .day1, .lit " ", .hour24,
     .lit ":", .minute2, .lit ":", .second2, .lit " ", .year4] ]

/-- Layout chunks 33-40. -/
def goTimeFormatsE : List (List LTok) :=
  [ -- "2006-01-02 15:04:05 (MST+0:00)"
    [.year4, .lit "-", .month2, .lit "-", .day2, .lit " ", .hour24, .lit ":",
     .minute2, .lit ":", .second2, .lit " (", .tzAbbr, .lit "+0:00)"],
    -- "2006-01-02 15:04:05 (GMT+0:00)" (GMT is literal in a Go layout)
    [.year4, .lit "-", .month2, .lit "-", .day2, .lit " ", .hour24, .lit ":",
     .minute2, .lit ":", .second2, .lit " (GMT+0:00)"],
    -- "2006.01.02 15:04:05"
    [.year4, .lit ".", .month2, .lit ".", .day2, .lit " ", .hour24, .lit ":",
     .minute2, .lit ":", .second2],
    -- "02-Jan-2006 15:04:05 UTC"
    [.day2, .lit "-", .monAbbr, .lit "-", .year4, .lit " ", .hour24, .lit ":",
     .minute2, .lit ":", .second2, .lit " UTC"],
    -- "2006-01-02" (repeated for .pt)
    [.year4, .lit "-", .month2, .lit "-", .day2],
    -- "2006-01-02T15:04:05Z" (repeated for .sb)
    [.year4, .lit "-", .month2, .lit "-", .day2, .lit "T", .hour24, .lit ":",
     .minute2, .lit ":", .second2, .lit "Z"],
    -- "2006-01-02" (repeated for .sk)
    [.year4, .lit "-", .month2, .lit "-", .day2],
    -- "2006-01-02T15:04:05.999999Z"
    [.year4, .lit "-", .month2, .lit "-", .day2, .lit "T", .hour24, .lit ":",
     .minute2, .lit ":", .second2, .fracOpt, .lit "Z"] ]

/-- Layout chunks 41-48. -/
def goTimeFormatsF : List (List LTok) :=
  [ -- "2006-01-02T15:04:05.453646Z" (junk fraction digits, so literal in Go)
    [.year4, .lit "-", .month2, .lit "-", .day2, .lit "T", .hour24, .lit ":",
     .minute2, .lit ":", .second2, .lit ".453646Z"],
    -- "2006-01-02" (repeated for .tg)
    [.year4, .lit "-", .month2, .lit "-", .day2],
    -- "2006-01-02" (repeated for .ug)
    [.year4, .lit "-", .month2, .lit "-", .day2],
    -- "2006-01-02" (repeated for .tm)
    [.year4, .lit "-", .month2, .lit "-", .day2],
    -- "2006-Jan-02"
    [.year4, .lit "-", .monAbbr, .lit "-", .day2],
    -- "2006-Jan-02."
    [.year4, .lit "-", .monAbbr, .lit "-", .day2, .lit "."],
    -- "Monday 2nd Jan 2006" (Go reads "2" as the day and "nd" as literal)
    [.dayFull, .lit " ", .day1, .lit "nd ", .monAbbr, .lit " ", .year4],
    -- "2nd January 2006"
    [.day1, .lit "nd ", .monFull, .lit " ", .year4] ]

/-- Layout chunks 49-56. -/
def goTimeFormatsG : List (List LTok) :=
  [ -- "2nd January 2006 at 15:04:05.000"
    [.day1, .lit "nd ", .monFull, .lit " ", .year4, .lit " at ", .hour24,
     .lit ":", .minute2, .lit ":", .second2, .fracReq 3],
    -- "02-01-2006" (repeated for .il)
    [.day2, .lit "-", .month2, .lit "-", .year4],
    -- "02/01/2006" (repeated for .sm)
    [.day2, .lit "/", .month2, .lit "/", .year4],
    -- "02-01-2006 15:04:05 GMT+1"
    [.day2, .lit "-", .month2, .lit "-", .year4, .lit " ", .hour24, .lit ":",
     .minute2, .lit ":", .second2, .lit " GMT+1"],
    -- "04-06-2024 06:53:01 GMT+1" (junk layout, embedded as a literal)
    [.lit "04-06-2024 06:53:01 GMT+1"],
    -- "02-Jan-2006 15:04:05 UTC" (repeated for .biz.ua)
    [.day2, .lit "-", .monAbbr, .lit "-", .year4, .lit " ", .hour24, .lit ":",
     .minute2, .lit ":", .second2, .lit " UTC"],
    -- "18-May-2020 00:00:00" (junk layout, embedded as a literal)
    [.lit "18-May-2020 00:00:00"],
    -- "02-Jan-2006 00:00:00" (the zero-padded time is literal in Go)
    [.day2, .lit "-", .monAbbr, .lit "-", .year4, .lit " 00:00:00"] ]

/-- Layout chunks 57-64. -/
def goTimeFormatsH : List (List LTok) :=
  [ -- "02-Jan-2006 15:04:05"
    [.day2, .lit "-", .monAbbr, .lit "-", .year4, .lit " ", .hour24, .lit ":",
     .minute2, .lit ":", .second2],
    -- "3.5.2016 15:48:12" (junk layout, embedded as a literal)
    [.lit "3.5.2016 15:48:12"],
    -- "2.1.2006 15:04:05"
    [.day1, .lit ".", .month1, .lit ".", .year4, .lit " ", .hour24, .lit ":",
     .minute2, .lit ":", .second2],
    -- "03.09.2010 12:25:53" (junk layout, embedded as a literal)
    [.lit "03.09.2010 12:25:53"],
    -- "02.01.2006 15:04:05"
    [.day2, .lit ".", .month2, .lit ".", .year4, .lit " ", .hour24, .lit ":",
     .minute2, .lit ":", .second2],
    -- "2023-02-13 18:30:26.453646" (junk layout, embedded as a literal)
    [.lit "2023-02-13 18:30:26.453646"],
    -- "2006-01-02 15:04:05.999999"
    [.year4, .lit "-", .month2, .lit "-", .day2, .lit " ", .hour24, .lit ":",
     .minute2, .lit ":", .second2, .fracOpt],
    -- "2025-12-15T12:12:32.295699+00:00" (junk layout, embedded as a literal)
    [.lit "2025-12-15T12:12:32.295699+00:00"] ]

/-- Layout chunk 65. -/
def goTimeFormatsI : List (List LTok) :=
  [ -- "2006-01-02T15:04:05.999999+00:00" (plus zone literal)
    [.year4, .lit "-", .month2, .lit "-", .day2, .lit "T", .hour24, .lit ":",
     .minute2, .lit ":", .second2, .fracOpt, .lit "+00:00"] ]

/-- The layout list of `parseDateTime`, in source order (chunked to keep
elaboration cheap). -/
def goTimeFormats : List (List LTok) :=
  goTimeFormatsA ++ goTimeFormatsB ++ goTimeFormatsC ++ goTimeFormatsD ++
    goTimeFormatsE ++ goTimeFormatsF ++ goTimeFormatsG ++ goTimeFormatsH ++
    goTimeFormatsI

/-- Collapse whitespace runs to single spaces (the source's replacement of
backslash-s plus by one space). -/
def collapseWsAux : Bool → List Char → List Char
  | _, [] => []
  | prevSpace, c :: t =>
    if isSpaceGo c then
      if prevSpace then collapseWsAux true t
      else ' ' :: collapseWsAux true t
    else c :: collapseWsAux false t

/-- Whitespace collapsing entry point. -/
def collapseWs (l : List Char) : List Char := collapseWsAux false l

/-- Strip a trailing parenthesized group such as " (JST)" (the source's
anchored replacement).  A group whose body itself contains an opening
parenthesis is trimmed from the inner one here; the regex would start at the
outer one — no input considered has nested groups. -/
def stripTrailingParen (l : List Char) : List Char :=
  let r := (l.reverse).dropWhile isSpaceGo
  match r with
  | ')' :: rest =>
    let inner := rest.takeWhile fun c => c ≠ '(' && c ≠ ')'
    if inner.isEmpty then l
    else
      match rest.drop inner.length with
      | '(' :: rest2 => ((rest2.dropWhile isSpaceGo).reverse)
      | _ => l
  | _ => l

/-- `WhoisClient.parseDateTime`: trim, collapse whitespace, strip a trailing
zone annotation, then try every layout in order.  Go's zero time starts at
month and day one. -/
def parseDateTime (dateStr : String) : Option GoTime :=
  let d := stripTrailingParen (collapseWs (trimL dateStr.data))
  goTimeFormats.findSome? fun toks =>
    runToks toks { year := 1, month := 1, day := 1, hour := 0, minute := 0,
                   second := 0 } d

/-! ## WHOIS extraction tables and classifier -/

/-- `config.DetectionPatterns` (the JSON catalogue's shape). -/
structure DetectionPatterns where
  availablePatterns : List String
  redemptionPatterns : List String
  pendingDeletePatterns : List String
  expiredPatterns : List String
  holdPatterns : List String
  transferLockPatterns : List String
  registeredPatterns : List String
  gracePatterns : List String
deriving DecidableEq

/-- The registrar regex table of `parseRegistrar`, in source order; each
entry is the shape of the Go pattern named in its comment. -/
def registrarRePats : List RePat :=
  [ .keyCap "registrar:",                 -- registrar:\s*(.+)
    .keyCap "registrar organization:",    -- registrar organization:\s*(.+)
    .keyCap "sponsoring registrar:",      -- sponsoring registrar:\s*(.+)
    .keyCap "sponsoring registrar:",      -- sponsoring Registrar:\s*(.+)
    .keyCap "registrar name:",            -- Registrar Name:\s*(.+)
    .keyCap "organization:",              -- Organization:\s*(.+)
    .keyCap "registrar:",                 -- registrar:\s*(.+) (.ru)
    .keyCap "[name]",                     -- \[Name\]\s*(.+) (.jp)
    .keyCap "[登録者名]",                  -- \[登録者名\]\s*(.+) (.jp)
    .keySpColonCap "등록대행자",            -- 등록대행자\s*:\s*(.+) (.kr)
    .keySpColonCap "authorized agency",   -- Authorized Agency\s*:\s*(.+) (.kr)
    .keyCap "registrar name:",            -- Registrar Name:\s*(.+) (.hk)
    .keyDotsColonCap "registrar",         -- registrar\.+:\s*(.+) (.ax)
    .keyDotsColonCap "registrar",         -- registrar\.+:\s*(.+) (.fi)
    .anchoredKeyCap "registrar:",         -- ^Registrar:\s*(.+) (.bn)
    .keyCap "registrar:",                 -- Registrar:\s*(.+) (.sn/.ga)
    .keyCap "organization name:",         -- Organization Name:\s*(.+) (.tr)
    .keyCap "registrar:",                 -- Registrar:\s*(.+) (.gg)
    .keyCap "registrar:",                 -- Registrar:\s*(.+) (.ro)
    .keyCap "current registar:",          -- Current Registar:\s*(.+) (.kz)
    .keyCap "registar created:",          -- Registar created:\s*(.+) (.kz)
    .anchoredKeyCap "registrar:",         -- ^Registrar:\s*(.+) (.rs)
    .keyDotsCap "registrar:",             -- Registrar:\.+(.+) (.tg)
    .keyCap "registrar-name:",            -- registrar-name:\s*(.+) (.lu)
    .sectionKeyCap "registrar" "name:" ]  -- \[Registrar\][\s\S]*?Name:\s*(.+) (.lv)

/-- Creation-date special patterns (`getSpecialDatePatterns`, first case). -/
def creationSpecialRePats : List RePat :=
  [ .keyCap "created:",                       -- created: (.ru)
    .keyCap "registration time:",             -- Registration Time: (.cn)
    .keyCap "domain name commencement date:", -- (.hk)
    .keyCap "[登録年月日]",                     -- (.jp)
    .keySpColonCap "등록일",                    -- 등록일\s*: (.kr)
    .keySpColonCap "registered date",         -- Registered Date\s*: (.kr)
    .keyCap "changed:",                       -- Changed: (.de)
    .keyCap "last modified:",                 -- Last Modified: (.au)
    .keyDotsColonCap "created",               -- created\.+: (.ax)
    .keySpaceCap "creation date:",            -- Creation Date:\s+ (.bn)
    .keyCap "creation date:",                 -- Creation date: (.cl)
    .keyCap "registered:",                    -- registered: (.cr etc.)
    .keyDotsColonCap "created",               -- created\.+: (.fi)
    .keyCap "created:",                       -- created: (.is)
    .keyCap "created:",                       -- Created: (.it)
    .keyCap "record created:",                -- Record created: (.kg)
    .keyCap "domain created:",                -- Domain created: (.kz)
    .keyCap "created:",                       -- created: (.pl)
    .keyCap "created on:",                    -- Created On: (.pp.ua)
    .keyCap "registration date:",             -- Registration date: (.rs)
    .keyCap "data de registo:",               -- Data de Registo: (.pt)
    .keyCap "registered on:",                 -- Registered On: (.ro)
    .keyCap "creation date:",                 -- Creation Date: (.sb)
    .keyCap "created:",                       -- Created: (.sk)
    .keyCap "date de création:",              -- Date de création: (.sn/.ga)
    .keyDotsCap "activation:",                -- Activation:\.+ (.tg)
    .keyCap "registered on:",                 -- Registered On: (.ug)
    .keyDotsColonCap "created on",            -- Created on\.+: (.tr)
    .keySpaceCap "registered on",             -- Registered on\s+ (.gg)
    .keyCap "created:",                       -- created: (.br)
    .keyCap "assigned:",                      -- assigned: (.il)
    .keyCap "registration date:",             -- Registration date: (.sm)
    .keyDotsColonCap "creation date",         -- Creation date\.+: (.tn)
    .keySpaceCap "record created on" ]        -- Record created on\s+ (.mo)

/-- Expiry-date special patterns (`getSpecialDatePatterns`, second case). -/
def expirySpecialRePats : List RePat :=
  [ .keyCap "paid-till:",                 -- paid-till: (.ru)
    .keyCap "free-date:",                 -- free-date: (.ru)
    .keyCap "expiration time:",           -- Expiration Time: (.cn)
    .keyCap "expiry date:",               -- Expiry Date: (.hk)
    .keyCap "[有効期限]",                  -- (.jp)
    .keySpColonCap "사용 종료일",           -- 사용 종료일\s*: (.kr)
    .keySpColonCap "expiration date",     -- Expiration Date\s*: (.kr)
    .keyDotsColonCap "expires",           -- expires\.+: (.ax)
    .keySpaceCap "expiration date:",      -- Expiration Date:\s+ (.bn)
    .keyCap "expiration date:",           -- Expiration date: (.cl)
    .keyCap "expire:",                    -- expire: (.cr etc.)
    .keyDotsColonCap "expires",           -- expires\.+: (.fi)
    .keyCap "expires:",                   -- expires: (.is)
    .keyCap "expire date:",               -- Expire Date: (.it)
    .keyCap "record expires on:",         -- Record expires on: (.kg)
    .keyCap "renewal date:",              -- renewal date: (.pl)
    .keyCap "expiration date:",           -- Expiration Date: (.pp.ua)
    .keyCap "expiration date:",           -- Expiration date: (.rs)
    .keyCap "data de expiração:",         -- Data de Expiração: (.pt)
    .keyCap "expires on:",                -- Expires On: (.ro)
    .keyCap "registry expiry date:",      -- Registry Expiry Date: (.sb)
    .keyCap "valid until:",               -- Valid Until: (.sk)
    .keyCap "date d\x27expiration:",      -- Date d expiration: (.sn/.ga)
    .keyDotsCap "expiration:",            -- Expiration:\.+ (.tg)
    .keyCap "expires on:",                -- Expires On: (.ug)
    .keyCap "expiry:",                    -- Expiry: (.tm)
    .keyDotsColonCap "expires on",        -- Expires on\.+: (.tr)
    .keyCap "renewal date:",              -- Renewal date: (.ac.uk)
    .keyCap "validity:",                  -- validity: (.il)
    .keySpaceCap "record expires on" ]    -- Record expires on\s+ (.mo)

/-- Update-date special patterns (`getSpecialDatePatterns`, third case). -/
def updatedSpecialRePats : List RePat :=
  [ .keyCap "[最終更新]",                  -- (.jp)
    .keySpColonCap "최근 정보 변경일",       -- (.kr)
    .keySpColonCap "last updated date",   -- Last Updated Date\s*: (.kr)
    .keyCap "changed:",                   -- Changed: (.de)
    .keyCap "last modified:",             -- Last Modified: (.au)
    .keyDotsColonCap "modified",          -- modified\.+: (.ax)
    .keySpaceCap "modified date:",        -- Modified Date:\s+ (.bn)
    .keyCap "changed:",                   -- changed: (.cr/.ve)
    .keyCap "changed:",                   -- changed: (.ee)
    .keyDotsColonCap "modified",          -- modified\.+: (.fi)
    .keyCap "last update:",               -- Last Update: (.it)
    .keySpColonCap "last modified",       -- Last modified\s*: (.kz)
    .keyCap "last updated on:",           -- Last Updated On: (.pp.ua)
    .keyCap "modification date:",         -- Modification date: (.rs)
    .keyCap "updated:",                   -- Updated: (.sk)
    .keyCap "dernière modification:",     -- Dernière modification: (.sn/.ga)
    .keyCap "changed:",                   -- changed: (.br)
    .keyCap "last modified:",             -- Last Modified: (.qa)
    .keyCap "updated:" ]                  -- Updated: (.lv)

/-- `getSpecialDatePatterns`: the source loops over the keywords and appends
the per-kind list once per keyword that hits its case (the case labels are
exactly the keyword lists, so the list is appended once per keyword). -/
def getSpecialDatePatterns (keywords : List String) : List RePat :=
  keywords.flatMap fun keyword =>
    let kw := lowerS keyword
    if kw = "creation date" || kw = "created" || kw = "registered" then
      creationSpecialRePats
    else if kw = "expiry date" || kw = "expires" || kw = "expiration date" ||
        kw = "registry expiry date" then
      expirySpecialRePats
    else if kw = "updated date" || kw = "last updated" || kw = "modified" then
      updatedSpecialRePats
    else []

/-- `WhoisClient.parseDate`: for each keyword try the generic
keyword-colon-line pattern, accepting the first whose captured text parses
as a date; then the same over the special patterns. -/
def parseDate (resp : String) (keywords : List String) : Option GoTime :=
  let generic := keywords.findSome? fun kw =>
    (rePatFind (.keyCap (kw ++ ":")) resp).bind fun cap =>
      parseDateTime (String.mk (trimL cap))
  match generic with
  | some d => some d
  | none =>
    (getSpecialDatePatterns keywords).findSome? fun p =>
      (rePatFind p resp).bind fun cap =>
        parseDateTime (String.mk (trimL cap))

/-- `WhoisClient.parseRegistrar`: first pattern with a match; trim, cut at
an opening parenthesis, trim again. -/
def parseRegistrar (resp : String) : String :=
  match registrarRePats.findSome? (fun p => rePatFind p resp) with
  | none => ""
  | some cap =>
    let registrar := trimL cap
    let beforeParen := registrar.takeWhile fun c => c ≠ '('
    if beforeParen.length = registrar.length then String.mk registrar
    else String.mk (trimL beforeParen)

/-- The name-server regex table of `parseNameServers`, in source order.  The
multi-line "Name Servers:" shapes (a colon key followed by a newline and
indented value) are the whitespace-skipping key shape, which matches the
same captures; the Primary/Secondary alternation is its two branches in
order. -/
def nameServerRePats : List RePat :=
  [ .keyCap "name server:",
    .keyCap "nameserver:",
    .keyCap "nserver:",
    .keyCap "dns:",
    .keyCap "name servers:",              -- Name Servers:\s*\n\s+ (.bn)
    .keyDotsColonCap "nserver",           -- nserver\.+: (.fi)
    .keyDotsColonCap "primary server",    -- (?:Primary|Secondary) server\.+: (.kz)
    .keyDotsColonCap "secondary server",
    .nsMoCap,                             -- Domain name servers: class run (.mo)
    .anchoredKeyCap "dns:",               -- ^DNS: (.rs)
    .keyDotsCap "name server (db):",      -- Name Server \(DB\):\.+ (.tg)
    .keyCap "name servers:",              -- Name servers:\s*\n\s+ (.gg)
    .anchoredKeyCap "nserver:",           -- ^nserver: (.lu)
    .sectionKeyCap "nservers" "nserver:" ] -- \[Nservers\][\s\S]*?Nserver: (.lv)

/-- Drop the "[ok]" suffix if present (`strings.TrimSuffix`). -/
def trimSuffixOk (l : List Char) : List Char :=
  if startsWithL "]ko[".data l.reverse then (l.reverse.drop 4).reverse else l

/-- The per-capture cleanup of `parseNameServers`: lowercase and trim, take
the first space- and tab-separated token, drop a trailing "[ok]", trim. -/
def cleanNameServer (cap : List Char) : String :=
  let ns0 := trimL (toLowerL cap)
  let ns1 := ns0.takeWhile fun c => c ≠ ' '
  let ns2 := ns1.takeWhile fun c => c ≠ '\t'
  String.mk (trimL (trimSuffixOk ns2))

/-- `WhoisClient.parseNameServers`: all captures of every pattern in order,
cleaned, kept when non-empty, unseen and containing a dot. -/
def parseNameServers (resp : String) : List String :=
  nameServerRePats.foldl
    (fun acc p =>
      (rePatFindAll p resp).foldl
        (fun acc2 cap =>
          let ns := cleanNameServer cap
          if ns ≠ "" && !acc2.contains ns && containsS ns "." then
            acc2 ++ [ns]
          else acc2)
        acc)
    []

/-- The expiry patterns `isExpired` probes. -/
def expiryCheckRePats : List RePat :=
  [ .keyCap "expiry date:", .keyCap "expires:", .keyCap "expiration date:",
    .keyCap "registry expiry date:" ]

/-- `WhoisClient.isExpired`: first probed pattern whose capture parses as a
date decides by comparison with the clock; otherwise false. -/
def isExpired (resp : String) (now : GoTime) : Bool :=
  (expiryCheckRePats.findSome? fun p =>
    (rePatFind p resp).bind fun cap =>
      (parseDateTime (String.mk (trimL cap))).map fun d => d.before now).getD
    false

/-- `WhoisClient.parseStatus`: fixed transport-failure markers first, then
the configured pattern lists in priority order; the expired patterns only
fire when the extracted expiry date is in the past.  The argument is the
already-lowercased response (as at the call site), which the source lowers
again redundantly for the marker checks. -/
def parseStatus (pats : DetectionPatterns) (response : String) (now : GoTime) :
    DomainStatus :=
  let lowerResponse := lowerS response
  if containsS lowerResponse "number of allowed queries exceeded" ||
      containsS lowerResponse "query limit" ||
      containsS lowerResponse "rate limit" ||
      containsS lowerResponse "too many requests" then
    StatusError
  else if containsS lowerResponse "blacklisted" ||
      containsS lowerResponse "blocked" ||
      containsS lowerResponse "access denied" then
    StatusError
  else if containsS lowerResponse "service unavailable" ||
      containsS lowerResponse "temporarily unavailable" ||
      containsS lowerResponse "server error" then
    StatusError
  else if pats.availablePatterns.any
      (fun p => containsS response (lowerS p)) then
    StatusAvailable
  else if pats.gracePatterns.any (fun p => containsS response (lowerS p)) then
    StatusGrace
  else if pats.redemptionPatterns.any
      (fun p => containsS response (lowerS p)) then
    StatusRedemption
  else if pats.pendingDeletePatterns.any
      (fun p => containsS response (lowerS p)) then
    StatusPendingDelete
  else if pats.expiredPatterns.any
      (fun p => containsS response (lowerS p) && isExpired response now) then
    StatusGrace
  else if pats.registeredPatterns.any
      (fun p => containsS response (lowerS p)) then
    StatusRegistered
  else
    StatusUnknown

/-- `WhoisClient.extractTLD`: last dot label, lowercased; empty when there
is no dot. -/
def extractTLD (domain : String) : String :=
  let parts := splitDot domain.data
  if 2 ≤ parts.length then String.mk (toLowerL (parts.getLastD []))
  else ""

/-- `WhoisClient.hasRegistrarInfo`: the per-TLD registrar presence table. -/
def hasRegistrarInfo (resp tld : String) : Bool :=
  if tld = "de" then false
  else if tld = "cn" || tld = "com.cn" || tld = "net.cn" || tld = "org.cn" then
    containsS resp "Sponsoring Registrar" || containsS resp "sponsoring registrar"
  else if tld = "jp" then
    containsS resp "[Name]" || containsS resp "GMO"
  else if tld = "kr" then
    containsS resp "등록대행자" || containsS resp "Authorized Agency"
  else if tld = "hk" then containsS resp "Registrar Name"
  else if tld = "ru" then containsS resp "registrar:"
  else if tld = "au" then containsS resp "Registrar Name"
  else true

/-- `WhoisClient.setUnsupportedDataMessages`: for a result that is neither
available nor error, fill an empty registrar with the unsupported notice per
the TLD table.  The source's date branches only ever re-assign nil to an
already-nil field, so they leave the record unchanged. -/
def setUnsupportedDataMessages (info : DomainInfo) (tld resp : String) :
    DomainInfo :=
  if info.status = StatusAvailable || info.status = StatusError then info
  else if info.registrar = "" then
    if tld = "de" then { info with registrar := "该后缀不支持注册商信息" }
    else if tld = "jp" then
      if !containsS resp "[Name]" && !containsS resp "GMO" then
        { info with registrar := "该后缀不支持注册商信息" }
      else info
    else if !hasRegistrarInfo resp tld then
      { info with registrar := "该后缀不支持注册商信息" }
    else info
  else info

/-- `WhoisClient.ParseWhoisResponse`: classify the lowercased body, extract
registrar, dates and name servers, apply the unsupported-data notices, and
promote a still-unknown status with registration signals to registered.  An
available status is returned unchanged — the only status rewrite is the
unknown branch. -/
def ParseWhoisResponse (pats : DetectionPatterns) (domain response : String)
    (now : GoTime) : DomainInfo :=
  let lowerResponse := lowerS response
  let status := parseStatus pats lowerResponse now
  let registrar := parseRegistrar response
  let tld := extractTLD domain
  let createdDate := parseDate response ["creation date", "created", "registered"]
  let expiryDate :=
    parseDate response
      ["expiry date", "expires", "expiration date", "registry expiry date"]
  let updatedDate := parseDate response ["updated date", "last updated", "modified"]
  let info0 : DomainInfo :=
    { name := domain, status := status, registrar := registrar,
      createdDate := createdDate, expiryDate := expiryDate,
      updatedDate := updatedDate, nameServers := [], whoisRaw := "",
      errorMessage := "", queryMethod := "whois", lastChecked := now }
  let info1 := setUnsupportedDataMessages info0 tld response
  let info2 := { info1 with nameServers := parseNameServers response }
  if info2.status = StatusUnknown then
    let hasValidRegistrar :=
      info2.registrar ≠ "" && !containsS info2.registrar "不支持"
    let hasNameServers := !info2.nameServers.isEmpty
    let hasExpiryDate := info2.expiryDate.isSome
    let hasCreatedDate := info2.createdDate.isSome
    if hasValidRegistrar || hasNameServers || hasExpiryDate || hasCreatedDate then
      { info2 with status := StatusRegistered }
    else info2
  else info2

/-- `DomainChecker.tryWhoisQuery`, success path after the wire query: parse
the response, attach the raw body, and replace an unknown result on a body
under 50 bytes by a fresh error record (whose other fields are Go zero
values). -/
def tryWhoisQuery (pats : DetectionPatterns) (domain response : String)
    (now : GoTime) : DomainInfo :=
  let result0 := ParseWhoisResponse pats domain response now
  let result := { result0 with whoisRaw := response }
  if result.status = StatusUnknown && goLen response < 50 then
    { name := domain, status := StatusError, registrar := "",
      createdDate := none, expiryDate := none, updatedDate := none,
      nameServers := [], whoisRaw := "",
      errorMessage := "WHOIS响应过短，可能是网络问题", queryMethod := "",
      lastChecked := now }
  else result

/-- Modelled from the spec: `detection_patterns.json` is embedded data not
among the provided sources.  The spec's §4.3.2 catalogue and its acceptance
example name "No match" as an available pattern; a minimal instance
suffices for the concrete evaluations below, since every general theorem
takes the patterns as a parameter. -/
def specPatterns : DetectionPatterns :=
  { availablePatterns := ["No match"],
    redemptionPatterns := ["redemptionperiod"],
    pendingDeletePatterns := ["pendingdelete"],
    expiredPatterns := ["expired"],
    holdPatterns := [],
    transferLockPatterns := [],
    registeredPatterns := ["domain status:"],
    gracePatterns := ["grace period"] }

/-! ## Concrete inputs used by the counterexamples and witnesses -/

/-- A fixed clock instant for the concrete evaluations. -/
def cexNow : GoTime :=
  { year := 2025, month := 1, day := 1, hour := 0, minute := 0, second := 0 }

/-- An earlier clock instant. -/
def cexEarlier : GoTime :=
  { year := 2024, month := 1, day := 1, hour := 0, minute := 0, second := 0 }

/-- A later clock instant. -/
def cexLater : GoTime :=
  { year := 2024, month := 6, day := 1, hour := 0, minute := 0, second := 0 }

/-- A stored result row with the later `last_checked`. -/
def cexResultLate : DomainResult :=
  { domain := "x.example", status := "registered", registrar := "",
    lastChecked := cexLater, queryMethod := "whois", createdAt := none,
    expiryAt := none, updatedAt := none, nameServers := [], whoisRaw := "r1",
    errorMessage := "" }

/-- An incoming result row whose `last_checked` is older than the stored
row's. -/
def cexResultEarly : DomainResult :=
  { cexResultLate with
    lastChecked := cexEarlier, status := "available", whoisRaw := "r2" }

/-- The table after saving the later row into an empty table. -/
def c1Tbl1 : ResultsTable :=
  match SaveDomainResult (fun _ => none) cexResultLate with
  | .ok t => t
  | .error _ => fun _ => none

/-- The table after then saving the older row. -/
def c1Tbl2 : ResultsTable :=
  match SaveDomainResult c1Tbl1 cexResultEarly with
  | .ok t => t
  | .error _ => fun _ => none

/-- The WHOIS body of the spec's safety-rail example: an available-pattern
hit together with a registrar line and a future expiry date. -/
def c2Body : String :=
  "No match for domain\r\nRegistrar: ACME Corp\r\nRegistry Expiry Date: 2099-01-01\r\n"

/-- A WHOIS body with a registrar line and no status patterns at all. -/
def c2BodyUnknownReg : String := "Registrar: ACME Corp\r\n"

/-- The previously stored row for the C3 scenario (state registered). -/
def c3Prev : DomainResult :=
  { domain := "x.example", status := "registered", registrar := "",
    lastChecked := cexEarlier, queryMethod := "whois", createdAt := none,
    expiryAt := none, updatedAt := none, nameServers := [], whoisRaw := "",
    errorMessage := "" }

/-- The freshly classified result for the C3 scenario (state available). -/
def c3Info : DomainInfo :=
  { name := "x.example", status := "available", registrar := "",
    createdDate := none, expiryDate := none, updatedDate := none,
    nameServers := [], whoisRaw := "", errorMessage := "",
    queryMethod := "whois", lastChecked := cexNow }

/-- The C3 worker: notifications on, not the first query. -/
def c3Worker : WorkerState :=
  { domain := "x.example", notify := true, isFirstQuery := false,
    lastStatus := "registered" }

/-- The transition event the C3 scenario emits. -/
def c3Event : StatusChangeEvent :=
  { domain := "x.example", oldStatus := "registered",
    newStatus := "available", timestamp := cexNow,
    message := GetStatusChangeMessage "x.example" "registered" "available" }

/-- A persisted notification record matching the C4 event's pair. -/
def c4Rec : NotificationRecord :=
  { id := 1, domain := "x.example", status := "redemption",
    oldStatus := "registered", sentAt := 5,
    notificationType := "status_change" }

/-- A notification-history table holding that record. -/
def c4Tbl : List NotificationRecord := [c4Rec]

/-- The resubmitted transition event with the same pair. -/
def c4Ev : NotificationEvent :=
  { eventType := "status_change", domain := "x.example",
    status := "redemption", oldStatus := "registered", message := "",
    timestamp := 9, whoisRaw := "" }

/-- An aggregator state with an empty group. -/
def c4St : AggState := { pendingEvents := [], groupTimerArmed := false }

/-- First pending event of the C5 batch scenario. -/
def c5Ev1 : NotificationEvent :=
  { eventType := "status_change", domain := "a.example",
    status := "available", oldStatus := "registered", message := "",
    timestamp := 1, whoisRaw := "" }

/-- Second pending event of the C5 batch scenario. -/
def c5Ev2 : NotificationEvent :=
  { eventType := "status_change", domain := "b.example",
    status := "redemption", oldStatus := "registered", message := "",
    timestamp := 2, whoisRaw := "" }

/-- An aggregator state with two pending events and the timer armed. -/
def c5St : AggState := { pendingEvents := [c5Ev1, c5Ev2], groupTimerArmed := true }

/-- A 49-byte ASCII body matching no pattern. -/
def c7Body49 : String := String.mk (List.replicate 49 'a')

/-- A 50-byte ASCII body matching no pattern. -/
def c7Body50 : String := String.mk (List.replicate 50 'a')

/-- A 51-byte ASCII body matching no pattern. -/
def c7Body51 : String := String.mk (List.replicate 51 'a')

/-- The step function of `GetLastNotification`'s fold (named for the lemmas
below; definitionally the fold body in `GetLastNotification`). -/
def lastStep (acc : Option NotificationRecord) (r : NotificationRecord) :
    Option NotificationRecord :=
  match acc with
  | none => some r
  | some a => some (laterOf a r)

/-- The fold step of `sendBatchNotification` (named for the lemmas below). -/
def batchStep (now : Nat) (acc : List NotificationRecord × Nat)
    (ev : NotificationEvent) : List NotificationRecord × Nat :=
  saveNotifLogged acc.1 acc.2 ev.domain ev.status ev.oldStatus now

/-- The claim's syntactic acceptance predicate, written from the claim's
words: non-empty, at most 253 characters, only [A-Za-z0-9.-], at least two
labels, each label 1-63 characters not starting or ending with a hyphen, and
a last label that is not all digits. -/
def SpecDomainSyntaxOk (d : List Char) : Prop :=
  d ≠ [] ∧ d.length ≤ 253 ∧ (∀ c ∈ d, isValidDomainChar c = true) ∧
  2 ≤ (splitDot d).length ∧
  (∀ p ∈ splitDot d, 1 ≤ p.length ∧ p.length ≤ 63 ∧
    p.head? ≠ some '-' ∧ p.getLast? ≠ some '-') ∧
  ¬allDigitsL ((splitDot d).getLast?.getD []) = true

end Puff

namespace Puff

/-! ## Theorems -/

/-- C1.  Counterexample: `SaveDomainResult` accepts a write whose
`last_checked` is older than the stored row's — saving `cexResultLate` and
then `cexResultEarly` (whose `last_checked` is strictly earlier) succeeds
and leaves the older value in the table, so the stored `last_checked` is not
monotone and no rejection happens. -/
theorem c1_counterexample :
    SaveDomainResult c1Tbl1 cexResultEarly = Except.ok c1Tbl2 ∧
    c1Tbl1 "x.example" = some cexResultLate ∧
    c1Tbl2 "x.example" = some cexResultEarly ∧
    cexResultEarly.lastChecked.before cexResultLate.lastChecked = true := by
  refine ⟨rfl, by decide, by decide, by decide⟩

/-- C1 (amended).  `save_result` never rejects a write: it is an
unconditional upsert, so after it the stored row for the written domain is
exactly the incoming row (its `last_checked` replaces the stored one even
when older) and every other domain's row is unchanged. -/
theorem c1_saveDomainResult_upsert :
    ∀ (tbl : ResultsTable) (res : DomainResult),
      (SaveDomainResult tbl res).isOk = true ∧
      ∀ t2 : ResultsTable, SaveDomainResult tbl res = Except.ok t2 →
        t2 res.domain = some res ∧ ∀ d, d ≠ res.domain → t2 d = tbl d := by
  intro tbl res
  refine ⟨rfl, ?_⟩
  intro t2 h
  have h2 : t2 = fun d => if d = res.domain then some res else tbl d := by
    cases h
    rfl
  subst h2
  constructor
  · simp
  · intro d hd
    simp [hd]

/-- C1 witness: the amended theorem applied to the empty table and the
concrete row. -/
theorem c1_witness :
    c1Tbl1 cexResultLate.domain = some cexResultLate ∧
    c1Tbl1 "z.example" = none :=
  let h := (c1_saveDomainResult_upsert (fun _ => none) cexResultLate).2
    c1Tbl1 rfl
  ⟨h.1, h.2 "z.example" (by decide)⟩

/-- C8.  `getIntervalByStatus` returns one hour for the error state and the
configured global check interval for every other status string. -/
theorem c8_interval_by_status :
    ∀ (checkInterval : Nat) (status : DomainStatus),
      getIntervalByStatus checkInterval status =
        if status = StatusError then timeHour else checkInterval := by
  intro ci s
  unfold getIntervalByStatus timeHour
  split_ifs with h1 h2 h3 h4 h5 h6 <;> simp_all [StatusAvailable,
    StatusPendingDelete, StatusRedemption, StatusGrace, StatusError,
    StatusRegistered]

end Puff

namespace Puff

/-- C3.  Counterexample: with a previously stored registered row, a fresh
available classification, notifications on and a failed database write
(`writeOk = false`), `executeQuery` still emits the transition event — the
write failure is only logged and does not suppress the emission. -/
theorem c3_counterexample :
    emittedEvents (executeQuery c3Worker (some c3Prev) c3Info false false cexNow).2 =
      [c3Event] ∧
    (executeQuery c3Worker (some c3Prev) c3Info false false cexNow).2 =
      [.recordQuery "x.example", .saveResult c3Info false,
       .emitTransition c3Event] := by
  constructor
  · decide
  · decide

/-- C3 (amended).  `executeQuery` makes its calls in a fixed order — record
the query, attempt the save, then emit — so a successful save precedes any
emission; but the emitted events do not depend on the write outcome: the
trace always equals the record and save actions followed by the emissions
computed as if the write had succeeded. -/
theorem c3_save_then_emit :
    ∀ (w : WorkerState) (previous : Option DomainResult) (info : DomainInfo)
      (writeOk channelFull : Bool) (now : GoTime),
      (executeQuery w previous info writeOk channelFull now).2 =
        .recordQuery w.domain :: .saveResult info writeOk ::
          (emittedEvents (executeQuery w previous info true channelFull now).2).map
            WorkerAction.emitTransition := by
  intro w prev info wOk ch now
  unfold executeQuery
  cases hf : w.isFirstQuery
  · simp only [Bool.false_eq_true, if_false]
    split
    · split <;> simp [emittedEvents]
    · simp [emittedEvents]
  · simp [emittedEvents]

/-- A list does not contain an element that is not a member. -/
theorem contains_false_of_not_mem {l : List String} {a : String} (h : a ∉ l) :
    l.contains a = false := by
  simp [List.contains]
  exact h

/-- A list contains each of its members. -/
theorem contains_true_of_mem {l : List String} {a : String} (h : a ∈ l) :
    l.contains a = true := by
  simp [List.contains]
  exact h

/-- C6.  `parseRDAPStatus` lowercases the RDAP status strings and classifies
by priority: redemption period markers give redemption, else pending delete
markers give pending_delete, else renew/expired markers give grace, and any
other non-empty status list gives registered; and `ParseRDAPResponse` maps
an errorCode of 404 to available. -/
theorem c6_rdap_status :
    ∀ (ss : List String) (resp : RDAPResponse) (domain raw : String) (now : GoTime),
      ("redemption period" ∈ ss.map lowerS ∨ "redemptionperiod" ∈ ss.map lowerS →
        parseRDAPStatus ss = StatusRedemption) ∧
      (¬("redemption period" ∈ ss.map lowerS ∨ "redemptionperiod" ∈ ss.map lowerS) →
        ("pending delete" ∈ ss.map lowerS ∨ "pendingdelete" ∈ ss.map lowerS) →
        parseRDAPStatus ss = StatusPendingDelete) ∧
      (¬("redemption period" ∈ ss.map lowerS ∨ "redemptionperiod" ∈ ss.map lowerS ∨
          "pending delete" ∈ ss.map lowerS ∨ "pendingdelete" ∈ ss.map lowerS) →
        ("renew period" ∈ ss.map lowerS ∨ "auto renew period" ∈ ss.map lowerS ∨
          "expired" ∈ ss.map lowerS) →
        parseRDAPStatus ss = StatusGrace) ∧
      (ss ≠ [] →
        ¬("redemption period" ∈ ss.map lowerS ∨ "redemptionperiod" ∈ ss.map lowerS ∨
          "pending delete" ∈ ss.map lowerS ∨ "pendingdelete" ∈ ss.map lowerS ∨
          "renew period" ∈ ss.map lowerS ∨ "auto renew period" ∈ ss.map lowerS ∨
          "expired" ∈ ss.map lowerS) →
        parseRDAPStatus ss = StatusRegistered) ∧
      (resp.errorCode = 404 →
        (ParseRDAPResponse domain resp raw now).status = StatusAvailable) := by
  intro ss resp domain raw now
  refine ⟨?_, ?_, ?_, ?_, ?_⟩
  · intro h
    have hne : ss.isEmpty = false := by
      cases ss
      · simp at h
      · rfl
    have hredT : (∃ a ∈ ss, lowerS a = "redemption period") ∨
        ∃ a ∈ ss, lowerS a = "redemptionperiod" := by
      rcases h with h | h
      · exact Or.inl (List.mem_map.mp h)
      · exact Or.inr (List.mem_map.mp h)
    simp [parseRDAPStatus, hne, hredT]
  · intro hno h
    have hne : ss.isEmpty = false := by
      cases ss
      · simp at h
      · rfl
    push_neg at hno
    obtain ⟨hn1, hn2⟩ := hno
    have hredF : ¬((∃ a ∈ ss, lowerS a = "redemption period") ∨
        ∃ a ∈ ss, lowerS a = "redemptionperiod") := by
      rintro (⟨a, ha, he⟩ | ⟨a, ha, he⟩)
      · exact hn1 (List.mem_map.mpr ⟨a, ha, he⟩)
      · exact hn2 (List.mem_map.mpr ⟨a, ha, he⟩)
    have hpdT : (∃ a ∈ ss, lowerS a = "pending delete") ∨
        ∃ a ∈ ss, lowerS a = "pendingdelete" := by
      rcases h with h | h
      · exact Or.inl (List.mem_map.mp h)
      · exact Or.inr (List.mem_map.mp h)
    simp [parseRDAPStatus, hne, hredF, hpdT]
  · intro hno h
    have hne : ss.isEmpty = false := by
      cases ss
      · simp at h
      · rfl
    push_neg at hno
    obtain ⟨hn1, hn2, hn3, hn4⟩ := hno
    have hredF : ¬((∃ a ∈ ss, lowerS a = "redemption period") ∨
        ∃ a ∈ ss, lowerS a = "redemptionperiod") := by
      rintro (⟨a, ha, he⟩ | ⟨a, ha, he⟩)
      · exact hn1 (List.mem_map.mpr ⟨a, ha, he⟩)
      · exact hn2 (List.mem_map.mpr ⟨a, ha, he⟩)
    have hpdF : ¬((∃ a ∈ ss, lowerS a = "pending delete") ∨
        ∃ a ∈ ss, lowerS a = "pendingdelete") := by
      rintro (⟨a, ha, he⟩ | ⟨a, ha, he⟩)
      · exact hn3 (List.mem_map.mpr ⟨a, ha, he⟩)
      · exact hn4 (List.mem_map.mpr ⟨a, ha, he⟩)
    have hgrT : ((∃ a ∈ ss, lowerS a = "renew period") ∨
        ∃ a ∈ ss, lowerS a = "auto renew period") ∨
        ∃ a ∈ ss, lowerS a = "expired" := by
      rcases h with h | h | h
      · exact Or.inl (Or.inl (List.mem_map.mp h))
      · exact Or.inl (Or.inr (List.mem_map.mp h))
      · exact Or.inr (List.mem_map.mp h)
    simp [parseRDAPStatus, hne, hredF, hpdF, hgrT]
  · intro hss hno
    have hne : ss.isEmpty = false := by
      cases ss
      · simp at hss
      · rfl
    push_neg at hno
    obtain ⟨hn1, hn2, hn3, hn4, hn5, hn6, hn7⟩ := hno
    have hredF : ¬((∃ a ∈ ss, lowerS a = "redemption period") ∨
        ∃ a ∈ ss, lowerS a = "redemptionperiod") := by
      rintro (⟨a, ha, he⟩ | ⟨a, ha, he⟩)
      · exact hn1 (List.mem_map.mpr ⟨a, ha, he⟩)
      · exact hn2 (List.mem_map.mpr ⟨a, ha, he⟩)
    have hpdF : ¬((∃ a ∈ ss, lowerS a = "pending delete") ∨
        ∃ a ∈ ss, lowerS a = "pendingdelete") := by
      rintro (⟨a, ha, he⟩ | ⟨a, ha, he⟩)
      · exact hn3 (List.mem_map.mpr ⟨a, ha, he⟩)
      · exact hn4 (List.mem_map.mpr ⟨a, ha, he⟩)
    have hgrF : ¬(((∃ a ∈ ss, lowerS a = "renew period") ∨
        ∃ a ∈ ss, lowerS a = "auto renew period") ∨
        ∃ a ∈ ss, lowerS a = "expired") := by
      rintro ((⟨a, ha, he⟩ | ⟨a, ha, he⟩) | ⟨a, ha, he⟩)
      · exact hn5 (List.mem_map.mpr ⟨a, ha, he⟩)
      · exact hn6 (List.mem_map.mpr ⟨a, ha, he⟩)
      · exact hn7 (List.mem_map.mpr ⟨a, ha, he⟩)
    simp [parseRDAPStatus, hne, hredF, hpdF, hgrF]
  · intro h404
    simp [ParseRDAPResponse, h404]


/-- C6 witness: the mapping applied to concrete status arrays and a 404
response. -/
theorem c6_witness :
    parseRDAPStatus ["ok", "Redemption Period", "Pending Delete"] =
      StatusRedemption ∧
    parseRDAPStatus ["Pending Delete"] = StatusPendingDelete ∧
    parseRDAPStatus ["Auto Renew Period"] = StatusGrace ∧
    parseRDAPStatus ["clientTransferProhibited"] = StatusRegistered ∧
    (ParseRDAPResponse "x.example"
      { objectClassName := "", handle := "", ldhName := "", status := [],
        entities := [], events := [], nameServers := [], errorCode := 404,
        title := "Not Found", description := ["Domain not found"] } "raw"
      cexNow).status = StatusAvailable := by
  refine ⟨?_, ?_, ?_, ?_, ?_⟩
  · exact (c6_rdap_status ["ok", "Redemption Period", "Pending Delete"]
      { objectClassName := "", handle := "", ldhName := "", status := [],
        entities := [], events := [], nameServers := [], errorCode := 0,
        title := "", description := [] } "d" "r" cexNow).1
      (Or.inl (by decide))
  · exact (c6_rdap_status ["Pending Delete"]
      { objectClassName := "", handle := "", ldhName := "", status := [],
        entities := [], events := [], nameServers := [], errorCode := 0,
        title := "", description := [] } "d" "r" cexNow).2.1
      (by decide) (Or.inl (by decide))
  · exact (c6_rdap_status ["Auto Renew Period"]
      { objectClassName := "", handle := "", ldhName := "", status := [],
        entities := [], events := [], nameServers := [], errorCode := 0,
        title := "", description := [] } "d" "r" cexNow).2.2.1
      (by decide) (Or.inr (Or.inl (by decide)))
  · exact (c6_rdap_status ["clientTransferProhibited"]
      { objectClassName := "", handle := "", ldhName := "", status := [],
        entities := [], events := [], nameServers := [], errorCode := 0,
        title := "", description := [] } "d" "r" cexNow).2.2.2.1
      (by decide) (by decide)
  · exact (c6_rdap_status []
      { objectClassName := "", handle := "", ldhName := "", status := [],
        entities := [], events := [], nameServers := [], errorCode := 404,
        title := "Not Found", description := ["Domain not found"] }
      "x.example" "raw" cexNow).2.2.2.2 rfl

end Puff

namespace Puff

/-- C7.  Counterexample: a response of exactly 50 bytes whose classification
is unknown is kept as unknown by `tryWhoisQuery` — the promotion to error
fires only strictly below 50 bytes, so the claim's "exactly 50 bytes is
promoted to error" fails at this input. -/
theorem c7_counterexample :
    goLen c7Body50 = 50 ∧
    (ParseWhoisResponse specPatterns "example.com" c7Body50 cexNow).status =
      StatusUnknown ∧
    (tryWhoisQuery specPatterns "example.com" c7Body50 cexNow).status =
      StatusUnknown := by
  refine ⟨by decide, by decide, by decide⟩

/-- C7 (amended).  For a query classifying as unknown, a body of fewer than
50 bytes is promoted to error, while a body of 50 bytes or more — in
particular both the 50- and 51-byte cases — is kept as the parsed result
with the raw body attached, so its state stays unknown. -/
theorem c7_short_response_threshold :
    ∀ (pats : DetectionPatterns) (domain response : String) (now : GoTime),
      (ParseWhoisResponse pats domain response now).status = StatusUnknown →
      (goLen response < 50 →
        (tryWhoisQuery pats domain response now).status = StatusError) ∧
      (50 ≤ goLen response →
        tryWhoisQuery pats domain response now =
          { ParseWhoisResponse pats domain response now with
            whoisRaw := response }) := by
  intro pats domain response now hunk
  constructor
  · intro hlen
    unfold tryWhoisQuery
    simp [hunk, hlen, StatusUnknown, StatusError]
  · intro hlen
    unfold tryWhoisQuery
    have : ¬(goLen response < 50) := by omega
    simp [hunk, this]

/-- C7 witness: the threshold applied to concrete 49- and 50-byte bodies. -/
theorem c7_witness :
    (tryWhoisQuery specPatterns "example.com" c7Body49 cexNow).status =
      StatusError ∧
    (tryWhoisQuery specPatterns "example.com" c7Body50 cexNow).status =
      StatusUnknown := by
  constructor
  · exact (c7_short_response_threshold specPatterns "example.com" c7Body49
      cexNow (by decide)).1 (by decide)
  · have h := (c7_short_response_threshold specPatterns "example.com" c7Body50
      cexNow (by decide)).2 (by decide)
    rw [h]
    decide

end Puff

namespace Puff

/-- The unsupported-data pass never changes the classification. -/
theorem setUnsupported_status (info : DomainInfo) (tld resp : String) :
    (setUnsupportedDataMessages info tld resp).status = info.status := by
  unfold setUnsupportedDataMessages
  split_ifs <;> rfl

/-- C2.  Counterexample: the spec's own safety-rail example body — "No
match" with a registrar line and a future expiry date — classifies as
available with the registrar and expiry extracted: the WHOIS parser keeps
the available state instead of promoting it to registered. -/
theorem c2_counterexample :
    (ParseWhoisResponse specPatterns "x.example" c2Body cexNow).status =
      StatusAvailable ∧
    (ParseWhoisResponse specPatterns "x.example" c2Body cexNow).registrar =
      "ACME Corp" ∧
    (ParseWhoisResponse specPatterns "x.example" c2Body cexNow).expiryDate =
      some { year := 2099, month := 1, day := 1, hour := 0, minute := 0,
             second := 0 } := by
  refine ⟨by decide, by decide, by decide⟩

/-- C2 (amended).  The WHOIS classifier's only safety rail is the unknown
branch: a pattern match yielding available is returned unchanged even when
registration signals are present, while a match yielding unknown together
with any registration signal (valid registrar, name servers, expiry or
creation date) is promoted to registered.  (The available-to-registered
correction exists only in the RDAP parser.) -/
theorem c2_whois_rail :
    ∀ (pats : DetectionPatterns) (domain response : String) (now : GoTime),
      (parseStatus pats (lowerS response) now = StatusAvailable →
        (ParseWhoisResponse pats domain response now).status = StatusAvailable) ∧
      (parseStatus pats (lowerS response) now = StatusUnknown →
        ((ParseWhoisResponse pats domain response now).registrar ≠ "" ∧
            containsS (ParseWhoisResponse pats domain response now).registrar
              "不支持" = false ∨
          (ParseWhoisResponse pats domain response now).nameServers ≠ [] ∨
          (ParseWhoisResponse pats domain response now).expiryDate.isSome = true ∨
          (ParseWhoisResponse pats domain response now).createdDate.isSome = true) →
        (ParseWhoisResponse pats domain response now).status = StatusRegistered) := by
  intro pats domain response now
  constructor
  · intro h
    unfold ParseWhoisResponse
    simp [h, setUnsupported_status, StatusAvailable, StatusUnknown]
  · intro h hsig
    unfold ParseWhoisResponse at hsig ⊢
    simp only [h, apply_ite DomainInfo.registrar, apply_ite DomainInfo.nameServers,
      apply_ite DomainInfo.expiryDate, apply_ite DomainInfo.createdDate,
      ite_self] at hsig
    simp [h, setUnsupported_status]
    rcases hsig with ⟨hr1, hr2⟩ | hns | hex | hcr <;> simp_all

/-- C2 witness: the rail applied to the available example body (kept
available) and to a pattern-free body with a registrar line (unknown
promoted to registered). -/
theorem c2_witness :
    (ParseWhoisResponse specPatterns "x.example" c2Body cexNow).status =
      StatusAvailable ∧
    (ParseWhoisResponse specPatterns "x.example" c2BodyUnknownReg cexNow).status =
      StatusRegistered := by
  constructor
  · exact (c2_whois_rail specPatterns "x.example" c2Body cexNow).1 (by decide)
  · exact (c2_whois_rail specPatterns "x.example" c2BodyUnknownReg cexNow).2
      (by decide) (Or.inl ⟨by decide, by decide⟩)

end Puff

namespace Puff

theorem getLast_eq_fold (tbl : List NotificationRecord) (d : String) :
    GetLastNotification tbl d =
      (tbl.filter fun r => r.domain = normalizeDomain d).foldl lastStep none := by
  rfl

theorem lastStep_cases (acc : Option NotificationRecord)
    (x r : NotificationRecord) (h : lastStep acc x = some r) :
    r = x ∨ acc = some r := by
  cases acc with
  | none =>
    left
    exact (Option.some.inj h).symm
  | some a =>
    unfold lastStep laterOf at h
    by_cases hc : a.sentAt < x.sentAt
    · left
      simp [hc] at h
      exact h.symm
    · right
      simp [hc] at h
      rw [h]

theorem lastStep_ge (acc : Option NotificationRecord)
    (x r : NotificationRecord) (h : lastStep acc x = some r) :
    x.sentAt ≤ r.sentAt ∧ ∀ a, acc = some a → a.sentAt ≤ r.sentAt := by
  cases acc with
  | none =>
    have hx := Option.some.inj h
    subst hx
    exact ⟨Nat.le_refl _, by intro a ha; cases ha⟩
  | some a =>
    unfold lastStep laterOf at h
    by_cases hc : a.sentAt < x.sentAt
    · simp [hc] at h
      subst h
      exact ⟨Nat.le_refl _, by intro b hb; cases hb; omega⟩
    · simp [hc] at h
      subst h
      exact ⟨by omega, by intro b hb; cases hb; exact Nat.le_refl _⟩

theorem foldl_lastStep_mem :
    ∀ (l : List NotificationRecord) (acc : Option NotificationRecord)
      (r : NotificationRecord),
      l.foldl lastStep acc = some r → r ∈ l ∨ acc = some r := by
  intro l
  induction l with
  | nil => intro acc r h; exact Or.inr h
  | cons x t ih =>
    intro acc r h
    rcases ih (lastStep acc x) r h with hm | hs
    · exact Or.inl (List.mem_cons_of_mem x hm)
    · rcases lastStep_cases acc x r hs with hx | ha
      · subst hx
        exact Or.inl (List.mem_cons_self r t)
      · exact Or.inr ha

theorem foldl_lastStep_ge :
    ∀ (l : List NotificationRecord) (acc : Option NotificationRecord)
      (r : NotificationRecord),
      l.foldl lastStep acc = some r →
      (∀ q ∈ l, q.sentAt ≤ r.sentAt) ∧
      (∀ a, acc = some a → a.sentAt ≤ r.sentAt) := by
  intro l
  induction l with
  | nil =>
    intro acc r h
    constructor
    · intro q hq
      simp at hq
    · intro a ha
      rw [ha] at h
      cases h
      exact Nat.le_refl _
  | cons x t ih =>
    intro acc r h
    obtain ⟨ht, hacc⟩ := ih (lastStep acc x) r h
    have hstep : (lastStep acc x).isSome = true := by
      cases acc <;> rfl
    obtain ⟨b, hb⟩ := Option.isSome_iff_exists.mp hstep
    have hbr : b.sentAt ≤ r.sentAt := hacc b hb
    obtain ⟨hxb, hab⟩ := lastStep_ge acc x b hb
    constructor
    · intro q hq
      rcases List.mem_cons.mp hq with rfl | hq2
      · omega
      · exact ht q hq2
    · intro a ha
      have := hab a ha
      omega

theorem foldl_lastStep_isSome :
    ∀ (l : List NotificationRecord) (acc : Option NotificationRecord),
      l ≠ [] ∨ acc.isSome = true → (l.foldl lastStep acc).isSome = true := by
  intro l
  induction l with
  | nil =>
    intro acc h
    rcases h with h | h
    · exact absurd rfl h
    · exact h
  | cons x t ih =>
    intro acc _
    apply ih
    right
    cases acc <;> rfl

theorem getLast_spec (tbl : List NotificationRecord) (d : String)
    (r : NotificationRecord) (h : GetLastNotification tbl d = some r) :
    r ∈ tbl ∧ r.domain = normalizeDomain d ∧
    ∀ q ∈ tbl, q.domain = normalizeDomain d → q.sentAt ≤ r.sentAt := by
  rw [getLast_eq_fold] at h
  have hmem := foldl_lastStep_mem _ _ _ h
  have hge := (foldl_lastStep_ge _ _ _ h).1
  rcases hmem with hm | hs
  · have hf := List.mem_filter.mp hm
    refine ⟨hf.1, by simpa using hf.2, ?_⟩
    intro q hq hqd
    exact hge q (List.mem_filter.mpr ⟨hq, by simpa using hqd⟩)
  · cases hs

theorem getLast_isSome (tbl : List NotificationRecord) (d : String)
    (q : NotificationRecord) (hq : q ∈ tbl)
    (hd : q.domain = normalizeDomain d) :
    (GetLastNotification tbl d).isSome = true := by
  rw [getLast_eq_fold]
  apply foldl_lastStep_isSome
  left
  intro hnil
  have : q ∈ tbl.filter fun r => r.domain = normalizeDomain d :=
    List.mem_filter.mpr ⟨hq, by simpa using hd⟩
  rw [hnil] at this
  cases this

end Puff

namespace Puff

theorem save_mem_fresh (tbl : List NotificationRecord) (nid : Nat)
    (d s o : String) (now : Nat) (hd : normalizeDomain d ≠ "") :
    ∃ q ∈ (saveNotifLogged tbl nid d s o now).1,
      q.domain = normalizeDomain d ∧ q.status = s ∧ q.oldStatus = o ∧
      q.sentAt = now := by
  unfold saveNotifLogged SaveNotification
  rw [if_neg hd]
  by_cases hmatch : tbl.any (notifMatches (normalizeDomain d) s) = true
  · rw [if_pos hmatch]
    obtain ⟨r, hr, hm⟩ := List.any_eq_true.mp hmatch
    refine ⟨{ r with sentAt := now, oldStatus := o }, ?_, ?_, ?_, rfl, rfl⟩
    · have := List.mem_map_of_mem
        (f := fun q => if notifMatches (normalizeDomain d) s q then
          { q with sentAt := now, oldStatus := o } else q) hr
      simpa [hm] using this
    · have hm2 := hm
      unfold notifMatches at hm2
      simp at hm2
      exact hm2.1
    · have hm2 := hm
      unfold notifMatches at hm2
      simp at hm2
      exact hm2.2
  · rw [if_neg hmatch]
    refine ⟨{ id := nid, domain := normalizeDomain d, status := s,
              oldStatus := o, sentAt := now,
              notificationType := "status_change" }, ?_, rfl, rfl, rfl, rfl⟩
    simp

theorem save_bounded (tbl : List NotificationRecord) (nid : Nat)
    (d s o : String) (now : Nat)
    (hfresh : ∀ q ∈ tbl, q.sentAt < now) :
    ∀ q ∈ (saveNotifLogged tbl nid d s o now).1,
      q.sentAt ≤ now ∧
      (q.sentAt = now →
        q.domain = normalizeDomain d ∧ q.status = s ∧ q.oldStatus = o) := by
  unfold saveNotifLogged SaveNotification
  by_cases hd : normalizeDomain d = ""
  · rw [if_pos hd]
    intro q hq
    have := hfresh q hq
    exact ⟨by omega, by omega⟩
  · rw [if_neg hd]
    by_cases hmatch : tbl.any (notifMatches (normalizeDomain d) s) = true
    · rw [if_pos hmatch]
      intro q hq
      obtain ⟨p, hp, hpq⟩ := List.mem_map.mp hq
      by_cases hm : notifMatches (normalizeDomain d) s p = true
      · rw [if_pos hm] at hpq
        subst hpq
        unfold notifMatches at hm
        simp at hm
        exact ⟨Nat.le_refl _, fun _ => ⟨hm.1, hm.2, rfl⟩⟩
      · rw [if_neg hm] at hpq
        subst hpq
        have := hfresh p hp
        exact ⟨by omega, by omega⟩
    · rw [if_neg hmatch]
      intro q hq
      rcases List.mem_append.mp hq with hq1 | hq2
      · have := hfresh q hq1
        exact ⟨by omega, by omega⟩
      · simp at hq2
        subst hq2
        exact ⟨Nat.le_refl _, fun _ => ⟨rfl, rfl, rfl⟩⟩

theorem save_preserves (tbl : List NotificationRecord) (nid : Nat)
    (d s o : String) (now : Nat) (q : NotificationRecord) (hq : q ∈ tbl)
    (hne : q.domain ≠ normalizeDomain d) :
    q ∈ (saveNotifLogged tbl nid d s o now).1 := by
  unfold saveNotifLogged SaveNotification
  by_cases hd : normalizeDomain d = ""
  · rw [if_pos hd]
    exact hq
  · rw [if_neg hd]
    by_cases hmatch : tbl.any (notifMatches (normalizeDomain d) s) = true
    · rw [if_pos hmatch]
      have hm : notifMatches (normalizeDomain d) s q = false := by
        unfold notifMatches
        simp
        intro hdom
        exact absurd hdom hne
      have := List.mem_map_of_mem
        (f := fun p => if notifMatches (normalizeDomain d) s p then
          { p with sentAt := now, oldStatus := o } else p) hq
      simpa [hm] using this
    · rw [if_neg hmatch]
      exact List.mem_append_left _ hq

theorem getLast_after_save (tbl : List NotificationRecord) (nid : Nat)
    (d s o : String) (now : Nat) (hdn : normalizeDomain d = d)
    (hne : d ≠ "") (hfresh : ∀ q ∈ tbl, q.sentAt < now) :
    ∃ r2, GetLastNotification (saveNotifLogged tbl nid d s o now).1 d = some r2 ∧
      r2.status = s ∧ r2.oldStatus = o := by
  have hne2 : normalizeDomain d ≠ "" := by rw [hdn]; exact hne
  obtain ⟨q, hqmem, hqd, hqs, hqo, hqt⟩ := save_mem_fresh tbl nid d s o now hne2
  have hsome := getLast_isSome _ d q hqmem hqd
  obtain ⟨r2, hr2⟩ := Option.isSome_iff_exists.mp hsome
  obtain ⟨hr2mem, _, hr2max⟩ := getLast_spec _ d r2 hr2
  have hb := save_bounded tbl nid d s o now hfresh r2 hr2mem
  have hge : now ≤ r2.sentAt := by
    have := hr2max q hqmem hqd
    omega
  have heq : r2.sentAt = now := by omega
  obtain ⟨_, hs2, ho2⟩ := hb.2 heq
  exact ⟨r2, hr2, hs2, ho2⟩

end Puff

namespace Puff

theorem handleEvent_drop_of_match (tbl : List NotificationRecord)
    (st : AggState) (ev : NotificationEvent) (r : NotificationRecord)
    (hlast : GetLastNotification tbl ev.domain = some r)
    (hs : r.status = ev.status) (ho : r.oldStatus = ev.oldStatus) :
    (handleEvent tbl st ev).1 = st ∧
    ((handleEvent tbl st ev).2.isDropped = true) := by
  unfold handleEvent handleEventWith
  by_cases h1 : ev.oldStatus = "" ∨ ev.oldStatus = "unknown"
  · rcases h1 with h1 | h1 <;> simp [h1, HandleOutcome.isDropped]
  · push_neg at h1
    obtain ⟨h1a, h1b⟩ := h1
    by_cases h2 : ev.oldStatus = ev.status
    · simp [h1a, h1b, h2, HandleOutcome.isDropped]
      split <;> simp
    · simp [h1a, h1b, h2, hlast, hs, ho, HandleOutcome.isDropped]

/-- C4.  An event whose (status, old status) pair equals the pair of the
domain's most recently persisted notification record is dropped by
`handleEvent` before any grouping: the aggregator state is unchanged and the
outcome is a drop, so no delivery can result.  Moreover — covering a
resubmission after a restart — after `SaveNotification` has persisted an
event's pair (into any table with older `sent_at` stamps), handling the same
event again consults `GetLastNotification` and drops it. -/
theorem c4_duplicate_drop :
    (∀ (tbl : List NotificationRecord) (st : AggState)
        (ev : NotificationEvent) (r : NotificationRecord),
        GetLastNotification tbl ev.domain = some r →
        r.status = ev.status → r.oldStatus = ev.oldStatus →
        (handleEvent tbl st ev).1 = st ∧
        ((handleEvent tbl st ev).2.isDropped = true)) ∧
    (∀ (tbl : List NotificationRecord) (nid now : Nat) (st : AggState)
        (ev : NotificationEvent),
        normalizeDomain ev.domain = ev.domain → ev.domain ≠ "" →
        (∀ q ∈ tbl, q.sentAt < now) →
        (handleEvent
          (saveNotifLogged tbl nid ev.domain ev.status ev.oldStatus now).1
          st ev).1 = st ∧
        ((handleEvent
          (saveNotifLogged tbl nid ev.domain ev.status ev.oldStatus now).1
          st ev).2.isDropped = true)) := by
  constructor
  · exact handleEvent_drop_of_match
  · intro tbl nid now st ev hdn hne hfresh
    obtain ⟨r2, hr2, hs2, ho2⟩ :=
      getLast_after_save tbl nid ev.domain ev.status ev.oldStatus now hdn
        hne hfresh
    exact handleEvent_drop_of_match _ st ev r2 hr2 hs2 ho2

/-- C4 witness: the drop applied to a concrete persisted record and a
matching resubmitted event. -/
theorem c4_witness :
    (handleEvent c4Tbl c4St c4Ev).1 = c4St ∧
    ((handleEvent c4Tbl c4St c4Ev).2.isDropped = true) :=
  c4_duplicate_drop.1 c4Tbl c4St c4Ev c4Rec (by decide) (by decide) (by decide)

end Puff

namespace Puff

theorem sendBatch_eq_fold (evs : List NotificationEvent)
    (tbl : List NotificationRecord) (nid now : Nat) :
    sendBatchNotification evs tbl nid now = evs.foldl (batchStep now) (tbl, nid) := by
  rfl

theorem fold_save_preserves (now : Nat) :
    ∀ (evs : List NotificationEvent) (acc : List NotificationRecord × Nat)
      (q : NotificationRecord),
      q ∈ acc.1 →
      (∀ ev ∈ evs, normalizeDomain ev.domain ≠ q.domain) →
      q ∈ (evs.foldl (batchStep now) acc).1 := by
  intro evs
  induction evs with
  | nil => intro acc q hq _; exact hq
  | cons x t ih =>
    intro acc q hq hno
    apply ih (batchStep now acc x) q
    · apply save_preserves
      · exact hq
      · intro hcontra
        exact hno x (List.mem_cons_self x t) hcontra.symm
    · intro ev hev
      exact hno ev (List.mem_cons_of_mem x hev)

theorem fold_save_persists (now : Nat) :
    ∀ (evs : List NotificationEvent) (acc : List NotificationRecord × Nat),
      (∀ ev ∈ evs, normalizeDomain ev.domain = ev.domain ∧ ev.domain ≠ "") →
      (evs.map fun e => e.domain).Nodup →
      ∀ ev ∈ evs, ∃ q ∈ (evs.foldl (batchStep now) acc).1,
        q.domain = ev.domain ∧ q.status = ev.status ∧
        q.oldStatus = ev.oldStatus ∧ q.sentAt = now := by
  intro evs
  induction evs with
  | nil => intro acc _ _ ev hev; cases hev
  | cons x t ih =>
    intro acc hn hd ev hev
    rcases List.mem_cons.mp hev with rfl | hev2
    · have hx := hn ev (List.mem_cons_self ev t)
      obtain ⟨q, hqmem, hqd, hqs, hqo, hqt⟩ :=
        save_mem_fresh acc.1 acc.2 ev.domain ev.status ev.oldStatus now
          (by rw [hx.1]; exact hx.2)
      refine ⟨q, ?_, by rw [hqd, hx.1], hqs, hqo, hqt⟩
      apply fold_save_preserves now t (batchStep now acc ev) q hqmem
      intro e he
      have hnd := List.nodup_cons.mp hd
      have hne2 : e.domain ≠ ev.domain := by
        intro hcontra
        exact hnd.1
          (by simpa [hcontra] using List.mem_map_of_mem (fun e => e.domain) he)
      rw [(hn e (List.mem_cons_of_mem ev he)).1, hqd, hx.1]
      exact hne2
    · have hnd := List.nodup_cons.mp hd
      exact ih (batchStep now acc x)
        (fun e he => hn e (List.mem_cons_of_mem x he)) hnd.2 ev hev2

/-- C5.  A flush of a non-empty pending group clears the pending list and
disarms the group timer; exactly one pending event is delivered as a single
notification, two or more as one batched notification carrying the events in
insertion order; and every pending event's notification record is persisted
with the flush timestamp (given well-formed, pairwise-distinct normalized
domains). -/
theorem c5_flush_semantics :
    ∀ (st : AggState) (tbl : List NotificationRecord) (nid now : Nat),
      st.pendingEvents ≠ [] →
      (∀ ev ∈ st.pendingEvents,
        normalizeDomain ev.domain = ev.domain ∧ ev.domain ≠ "") →
      (st.pendingEvents.map fun e => e.domain).Nodup →
      (sendPendingNotificationsLocked st tbl nid now).1.pendingEvents = [] ∧
      (sendPendingNotificationsLocked st tbl nid now).1.groupTimerArmed = false ∧
      (∀ ev, st.pendingEvents = [ev] →
        (sendPendingNotificationsLocked st tbl nid now).2.2 =
          some (Delivery.single ev)) ∧
      (2 ≤ st.pendingEvents.length →
        (sendPendingNotificationsLocked st tbl nid now).2.2 =
          some (Delivery.batch st.pendingEvents)) ∧
      (∀ ev ∈ st.pendingEvents,
        ∃ q ∈ (sendPendingNotificationsLocked st tbl nid now).2.1.1,
          q.domain = ev.domain ∧ q.status = ev.status ∧
          q.oldStatus = ev.oldStatus ∧ q.sentAt = now) := by
  intro st tbl nid now hne hn hd
  obtain ⟨pending, timer⟩ := st
  rcases pending with _ | ⟨x, _ | ⟨y, u⟩⟩
  · exact absurd rfl hne
  · refine ⟨rfl, rfl, ?_, ?_, ?_⟩
    · intro ev hev
      injection hev with h1 _
      subst h1
      rfl
    · intro hlen
      simp at hlen
    · intro ev hev
      have hev2 : ev = x := by
        rcases List.mem_cons.mp hev with h | h
        · exact h
        · cases h
      subst hev2
      have hx := hn ev (List.mem_cons_self ev [])
      obtain ⟨q, hq, hqd, hqs, hqo, hqt⟩ :=
        save_mem_fresh tbl nid ev.domain ev.status ev.oldStatus now
          (by rw [hx.1]; exact hx.2)
      exact ⟨q, hq, by rw [hqd, hx.1], hqs, hqo, hqt⟩
  · refine ⟨rfl, rfl, ?_, ?_, ?_⟩
    · intro ev hev
      simp at hev
    · intro _
      rfl
    · intro ev hev
      exact fold_save_persists now (x :: y :: u) (tbl, nid) hn hd ev hev

/-- C5 witness: the flush applied to a concrete two-event group. -/
theorem c5_witness :
    (sendPendingNotificationsLocked c5St [] 1 7).1.pendingEvents = [] ∧
    (sendPendingNotificationsLocked c5St [] 1 7).1.groupTimerArmed = false ∧
    (sendPendingNotificationsLocked c5St [] 1 7).2.2 =
      some (Delivery.batch [c5Ev1, c5Ev2]) := by
  have h := c5_flush_semantics c5St [] 1 7 (by decide)
    (by intro ev hev; fin_cases hev <;> exact ⟨by decide, by decide⟩)
    (by decide)
  exact ⟨h.1, h.2.1, h.2.2.2.1 (by decide)⟩

end Puff

namespace Puff

/-- C10.  A `SaveNotification` call that conflicts with an existing
(domain, status) record updates that record's `sent_at` and `old_status`
(the latter to the new value) while keeping its `id`, `domain`, `status` and
`notification_type` columns and every other row unchanged, creates no
additional row, and afterwards `GetLastNotification` — the dedup comparison —
sees the `old_status` of this most recent send (under fresh timestamps). -/
theorem c10_save_notification_frame :
    ∀ (tbl : List NotificationRecord) (nid : Nat)
      (domain status oldStatus : String) (now : Nat) (r : NotificationRecord),
      normalizeDomain domain = domain → domain ≠ "" →
      r ∈ tbl → notifMatches domain status r = true →
      ∀ (t2 : List NotificationRecord) (nid2 : Nat),
        SaveNotification tbl nid domain status oldStatus now =
          Except.ok (t2, nid2) →
        nid2 = nid ∧ t2.length = tbl.length ∧
        ({ r with sentAt := now, oldStatus := oldStatus } ∈ t2) ∧
        (∀ q ∈ tbl, notifMatches domain status q = false → q ∈ t2) ∧
        (∀ q2 ∈ t2, ∃ q ∈ tbl,
          q2.id = q.id ∧ q2.domain = q.domain ∧ q2.status = q.status ∧
          q2.notificationType = q.notificationType ∧
          (notifMatches domain status q = true →
            q2.sentAt = now ∧ q2.oldStatus = oldStatus) ∧
          (notifMatches domain status q = false → q2 = q)) ∧
        ((∀ q ∈ tbl, q.sentAt < now) →
          ∀ r2, GetLastNotification t2 domain = some r2 →
            r2.status = status ∧ r2.oldStatus = oldStatus) := by
  intro tbl nid domain status oldStatus now r hdn hne hr hm t2 nid2 hsave
  have hany : tbl.any (notifMatches (normalizeDomain domain) status) = true :=
    List.any_eq_true.mpr ⟨r, hr, by rw [hdn]; exact hm⟩
  have hne2 : normalizeDomain domain ≠ "" := by rw [hdn]; exact hne
  unfold SaveNotification at hsave
  rw [if_neg hne2, if_pos hany] at hsave
  have ht2 : t2 = tbl.map fun q =>
      if notifMatches (normalizeDomain domain) status q then
        { q with sentAt := now, oldStatus := oldStatus }
      else q := by
    cases hsave
    rfl
  have hnid : nid2 = nid := by
    cases hsave
    rfl
  subst ht2
  refine ⟨hnid, List.length_map _ _, ?_, ?_, ?_, ?_⟩
  · have := List.mem_map_of_mem
      (f := fun q => if notifMatches (normalizeDomain domain) status q then
        { q with sentAt := now, oldStatus := oldStatus }
      else q) hr
    simpa [hdn, hm] using this
  · intro q hq hqm
    have := List.mem_map_of_mem
      (f := fun p => if notifMatches (normalizeDomain domain) status p then
        { p with sentAt := now, oldStatus := oldStatus }
      else p) hq
    simpa [hdn, hqm] using this
  · intro q2 hq2
    obtain ⟨q, hq, hqeq⟩ := List.mem_map.mp hq2
    by_cases hqm : notifMatches (normalizeDomain domain) status q = true
    · rw [if_pos hqm] at hqeq
      subst hqeq
      refine ⟨q, hq, rfl, rfl, rfl, rfl, fun _ => ⟨rfl, rfl⟩, ?_⟩
      intro hqf
      rw [hdn] at hqm
      rw [hqm] at hqf
      cases hqf
    · rw [if_neg hqm] at hqeq
      subst hqeq
      refine ⟨q, hq, rfl, rfl, rfl, rfl, ?_, fun _ => rfl⟩
      intro hqt
      rw [hdn] at hqm
      rw [hqt] at hqm
      exact absurd rfl hqm
  · intro hfresh r2 hr2
    have hlogged : (saveNotifLogged tbl nid domain status oldStatus now).1 =
        tbl.map fun q =>
          if notifMatches (normalizeDomain domain) status q then
            { q with sentAt := now, oldStatus := oldStatus }
          else q := by
      unfold saveNotifLogged SaveNotification
      rw [if_neg hne2, if_pos hany]
    obtain ⟨r3, hr3, hs3, ho3⟩ :=
      getLast_after_save tbl nid domain status oldStatus now hdn hne hfresh
    rw [hlogged] at hr3
    rw [hr2] at hr3
    cases hr3
    exact ⟨hs3, ho3⟩

/-- C10 witness: the frame theorem applied to a concrete conflicting
write. -/
theorem c10_witness :
    ({ c4Rec with sentAt := 9, oldStatus := "grace" } ∈
      ([{ c4Rec with sentAt := 9, oldStatus := "grace" }] :
        List NotificationRecord)) ∧
    ([{ c4Rec with sentAt := 9, oldStatus := "grace" }] :
      List NotificationRecord).length = c4Tbl.length := by
  have h := c10_save_notification_frame c4Tbl 2 "x.example" "redemption"
    "grace" 9 c4Rec (by decide) (by decide) (List.mem_cons_self c4Rec [])
    (by decide) [{ c4Rec with sentAt := 9, oldStatus := "grace" }] 2 rfl
  exact ⟨h.2.2.1, h.2.1⟩

end Puff

namespace Puff

theorem partBasicOk_iff (p : List Char) :
    partBasicOk p = true ↔
      1 ≤ p.length ∧ p.length ≤ 63 ∧ p.head? ≠ some '-' ∧
      p.getLast? ≠ some '-' := by
  cases p with
  | nil => simp [partBasicOk]
  | cons c t =>
    simp [partBasicOk]
    exact and_assoc

theorem checkParts_iff :
    ∀ (ps : List (List Char)), ps ≠ [] →
      (checkParts ps = true ↔
        (∀ p ∈ ps, partBasicOk p = true) ∧
        allDigitsL (ps.getLast?.getD []) = false) := by
  intro ps
  induction ps with
  | nil => intro h; exact absurd rfl h
  | cons p t ih =>
    intro _
    cases t with
    | nil =>
      simp [checkParts]
    | cons q u =>
      have ihx := ih (by simp)
      unfold checkParts
      rw [List.getLast?_cons_cons]
      constructor
      · intro h
        have hb := (Bool.and_eq_true _ _).mp h
        obtain ⟨ha, hrest⟩ := ihx.mp hb.2
        refine ⟨?_, hrest⟩
        intro r hr
        rcases List.mem_cons.mp hr with rfl | hr2
        · exact hb.1
        · exact ha r hr2
      · intro hx
        obtain ⟨ha, hlast⟩ := hx
        apply (Bool.and_eq_true _ _).mpr
        refine ⟨ha p (List.mem_cons_self p _), ?_⟩
        exact ihx.mpr ⟨fun r hr => ha r (List.mem_cons_of_mem p hr), hlast⟩

theorem validate_iff (x : String) :
    ValidateDomain x = true ↔ SpecDomainSyntaxOk (trimL x.data) := by
  show (if (trimL x.data).isEmpty then false
    else if 253 < (trimL x.data).length then false
    else if !((trimL x.data).all isValidDomainChar) then false
    else if (splitDot (trimL x.data)).length < 2 then false
    else checkParts (splitDot (trimL x.data))) = true ↔
    SpecDomainSyntaxOk (trimL x.data)
  split_ifs with h1 h2 h3 h4
  · simp only [List.isEmpty_iff] at h1
    simp [SpecDomainSyntaxOk, h1]
  · simp only [Bool.false_eq_true, false_iff, SpecDomainSyntaxOk]
    rintro ⟨_, hlen, _, _, _, _⟩
    omega
  · simp at h3
    simp only [Bool.false_eq_true, false_iff, SpecDomainSyntaxOk]
    rintro ⟨_, _, hchar, _, _, _⟩
    obtain ⟨c, hc, hf⟩ := h3
    have := hchar c hc
    rw [this] at hf
    cases hf
  · simp only [Bool.false_eq_true, false_iff, SpecDomainSyntaxOk]
    rintro ⟨_, _, _, hsplit, _, _⟩
    omega
  · have hne : splitDot (trimL x.data) ≠ [] := by
      intro hnil
      rw [hnil] at h4
      simp at h4
    rw [checkParts_iff _ hne]
    simp only [List.isEmpty_iff] at h1
    simp at h3
    unfold SpecDomainSyntaxOk
    constructor
    · intro hx
      obtain ⟨hall, hlast⟩ := hx
      refine ⟨h1, by omega, ?_, by omega, ?_, ?_⟩
      · intro c hc
        exact h3 c hc
      · intro p hp
        exact (partBasicOk_iff p).mp (hall p hp)
      · simp [hlast]
    · intro hx
      obtain ⟨_, _, _, _, hparts, hlast⟩ := hx
      refine ⟨?_, ?_⟩
      · intro p hp
        exact (partBasicOk_iff p).mpr (hparts p hp)
      · cases hcase : allDigitsL ((splitDot (trimL x.data)).getLast?.getD [])
        · rfl
        · exact absurd hcase hlast

/-- C9.  `Monitor.AddDomain` accepts a name exactly when the trimmed,
lowercased form passes the claim's syntactic checks; in particular the
acceptance predicate takes no TLD registry — the supported-TLD resolution is
not consulted by add_domain. -/
theorem c9_validation :
    ∀ (s : String),
      AddDomainAccepts s = true ↔
        SpecDomainSyntaxOk (trimL (normalizeDomain s).data) := by
  intro s
  exact validate_iff (normalizeDomain s)

/-- C9.  Counterexample: a syntactically valid name whose suffix resolves to
no supported TLD (under the modeled registry key set, here containing only
"com") is still accepted by `AddDomain` — acceptance does not require TLD
resolution, refuting the claim's only-if direction. -/
theorem c9_counterexample :
    AddDomainAccepts "example.zzz" = true ∧
    FindBestTLD ["com"] "example.zzz" = "" := by
  refine ⟨by decide, by decide⟩

end Puff
